import Mathlib

/-!
Verification of the McDonalds-investment ledger code: a shallow embedding of
the inventory manager (`src/lib/product-inventory-service.ts`), the
investment-plan payout engine, the multi-level referral bonus engine and the
milestone reward engine (`user-service.ts`), with theorems settling the
frozen claims about them.

Conventions: Firestore documents become Lean structures; collections become
association lists; user ids are natural numbers; currency amounts are exact
rationals (the spec fixes a single minor-unit-free currency with
round-half-away-from-zero, embedded as JavaScript `Math.round`);
timestamps are integers in milliseconds.  Timestamp fields that no claim
depends on (`createdAt`, `updatedAt`, transaction dates) are omitted, as are
free-text notification messages (a notification keeps only its recipient).
-/

namespace McdInvest

/-- JavaScript `Math.round`: round half toward positive infinity,
`Math.round x = ⌊x + 1/2⌋`. -/
def jsRound (q : ℚ) : ℤ := ⌊q + (1 : ℚ)/2⌋

/-! ## Inventory manager (`ProductInventoryService`) -/

/-- One product entry of an inventory document:
`{ purchased, total, name }`. -/
structure ProdEntry where
  purchased : Nat
  total : Nat
  label : String
deriving DecidableEq, Repr

/-- An inventory document: a map from product id to its entry
(Firestore document fields, embedded as an association list). -/
abbrev InventoryDoc := List (String × ProdEntry)

/-- The product type selecting which inventory document is addressed. -/
inductive PType where
  | special
  | premium
deriving DecidableEq, Repr

/-- The `product_inventory` collection: the two per-type documents (absent
until written) and whether the `initialized` marker document exists. -/
structure InvState where
  specialDoc : Option InventoryDoc
  premiumDoc : Option InventoryDoc
  marker : Bool
deriving DecidableEq, Repr

/-- The empty store: no documents written yet. -/
def invEmpty : InvState := ⟨none, none, false⟩

/-- Seed data for the `special` document (source lines 43-55). -/
def specialSeed : InventoryDoc :=
  [("special-1", ⟨0, 50, "Special 1"⟩),
   ("special-2", ⟨0, 50, "Special 2"⟩),
   ("special-3", ⟨0, 50, "Special 3"⟩),
   ("special-4", ⟨0, 50, "Special 4"⟩),
   ("special-5", ⟨0, 50, "Special 5"⟩),
   ("special-6", ⟨0, 35, "Special 6"⟩),
   ("special-7", ⟨0, 25, "Special 7"⟩),
   ("special-8", ⟨0, 15, "Special 8"⟩),
   ("special-9", ⟨0, 5, "Special 9"⟩),
   ("special-10", ⟨0, 3, "Special 10"⟩),
   ("special-11", ⟨0, 1, "Special 11"⟩)]

/-- Seed data for the `premium` document (source lines 58-69). -/
def premiumSeed : InventoryDoc :=
  [("premium-1", ⟨0, 200, "Premium 1"⟩),
   ("premium-2", ⟨0, 55, "Premium 2"⟩),
   ("premium-3", ⟨0, 55, "Premium 3"⟩),
   ("premium-4", ⟨0, 55, "Premium 4"⟩),
   ("premium-5", ⟨0, 50, "Premium 5"⟩),
   ("premium-6", ⟨0, 45, "Premium 6"⟩),
   ("premium-7", ⟨0, 20, "Premium 7"⟩),
   ("premium-8", ⟨0, 10, "Premium 8"⟩),
   ("premium-9", ⟨0, 2, "Premium 9"⟩),
   ("premium-10", ⟨0, 1, "Premium 10"⟩)]

/-- Read the per-type document. -/
def InvState.getDoc (s : InvState) : PType → Option InventoryDoc
  | .special => s.specialDoc
  | .premium => s.premiumDoc

/-- Overwrite the per-type document (`setDoc` / `updateDoc` target). -/
def InvState.setDoc (s : InvState) (t : PType) (d : InventoryDoc) : InvState :=
  match t with
  | .special => { s with specialDoc := some d }
  | .premium => { s with premiumDoc := some d }

/-- Look up a product id inside a document (`inventory[productId]`). -/
def docFind (d : InventoryDoc) (pid : String) : Option ProdEntry :=
  (d.find? (fun e => e.1 = pid)).map (·.2)

/-- Field-path update `{ [`productId.purchased`]: v }` on a document. -/
def docSetPurchased (d : InventoryDoc) (pid : String) (v : Nat) : InventoryDoc :=
  d.map (fun e => if e.1 = pid then (e.1, { e.2 with purchased := v }) else e)

/-- `initializeInventory` (source lines 25-88): if the `initialized` marker
document exists, do nothing; otherwise write the two seed documents and the
marker. -/
def initializeInventory (s : InvState) : InvState :=
  if s.marker then s
  else { specialDoc := some specialSeed, premiumDoc := some premiumSeed, marker := true }

/-- `increasePurchasedCount` (source lines 133-199): ensure initialization,
read the per-type document, fail if it or the product is absent or the
product is sold out, otherwise write `purchased + 1` for that product and
report success. -/
def increasePurchasedCount (pid : String) (t : PType) (s : InvState) :
    Bool × InvState :=
  let s1 := initializeInventory s
  match s1.getDoc t with
  | none => (false, s1)
  | some inv =>
    match docFind inv pid with
    | none => (false, s1)
    | some e =>
      if e.total ≤ e.purchased then (false, s1)
      else (true, s1.setDoc t (docSetPurchased inv pid (e.purchased + 1)))

/-- `restoreInventory` (source lines 202-226): reset every product's
purchased count of one per-type document to 0. -/
def restoreInventory (t : PType) (s : InvState) : InvState :=
  match s.getDoc t with
  | none => s
  | some inv => s.setDoc t (inv.map (fun e => (e.1, { e.2 with purchased := 0 })))

/-- The inventory operations the claims quantify over. -/
inductive InvOp where
  | init
  | inc (pid : String) (t : PType)
  | restore (t : PType)

/-- Apply one inventory operation to the store. -/
def applyInvOp (s : InvState) : InvOp → InvState
  | .init => initializeInventory s
  | .inc pid t => (increasePurchasedCount pid t s).2
  | .restore t => restoreInventory t s

/-- Run a sequence of inventory operations from the empty store. -/
def runInvOps (ops : List InvOp) : InvState :=
  ops.foldl applyInvOp invEmpty

/-- Per-document invariant: every entry has `purchased ≤ total`. -/
def docOk (d : InventoryDoc) : Prop :=
  ∀ e ∈ d, e.2.purchased ≤ e.2.total

/-- Store invariant: both documents, when present, satisfy `docOk`. -/
def InvState.ok (s : InvState) : Prop :=
  (∀ d, s.specialDoc = some d → docOk d) ∧
    (∀ d, s.premiumDoc = some d → docOk d)

/-- Auxiliary per-document well-formedness: the invariant together with the
fact that product ids are unique inside a document (Firestore document
fields form a map, so the association list can never hold duplicate keys). -/
def docGood (d : InventoryDoc) : Prop :=
  docOk d ∧ (d.map Prod.fst).Nodup

/-! ## Concurrent model of the inventory increment

`increasePurchasedCount` performs two store round trips on the targeted
product field: a `getDoc` read, then an `updateDoc` write whose value is
computed from the read (`newPurchased = oldPurchased + 1`, with the
sold-out check made on the read value).  For the concurrency claim the
per-product cell and two interleaved clients of this read/check/write
protocol are modelled explicitly. -/

/-- The persisted per-product counters (`total` is never written by the
increment path). -/
structure Cell where
  purchased : Nat
  total : Nat
deriving DecidableEq, Repr

/-- A client of the increment protocol: before its read, between read and
write holding the read value, or finished with its boolean result. -/
inductive CPhase where
  | toRead
  | toWrite (readVal : Nat)
  | finished (res : Bool)
deriving DecidableEq, Repr

/-- One protocol step of a client: the read round trip, or the
check-and-write round trip (the check `purchased >= total` uses the value
read earlier; the written value is that read value plus one). -/
def clientStep (c : CPhase) (cell : Cell) : CPhase × Cell :=
  match c with
  | .toRead => (.toWrite cell.purchased, cell)
  | .toWrite v =>
    if cell.total ≤ v then (.finished false, cell)
    else (.finished true, { cell with purchased := v + 1 })
  | .finished r => (.finished r, cell)

/-- Two concurrent `increasePurchasedCount` calls on the same product. -/
structure TwoSys where
  cell : Cell
  clientA : CPhase
  clientB : CPhase
deriving DecidableEq, Repr

/-- Schedule one step: `true` steps client A, `false` steps client B. -/
def sysStep (t : TwoSys) (w : Bool) : TwoSys :=
  if w then
    let (a', c') := clientStep t.clientA t.cell
    { t with clientA := a', cell := c' }
  else
    let (b', c') := clientStep t.clientB t.cell
    { t with clientB := b', cell := c' }

/-- Run an interleaving schedule. -/
def runSched (sched : List Bool) (t : TwoSys) : TwoSys :=
  sched.foldl sysStep t

/-- How many of the two calls returned `true`. -/
def succCount (t : TwoSys) : Nat :=
  (if t.clientA = .finished true then 1 else 0) +
    (if t.clientB = .finished true then 1 else 0)

/-! ## Ledger model (`user-service.ts`)

Users, transactions, purchased products, milestone reward claims and
notifications, with the operations of `UserService`, `TransactionService`,
`ProductService`, `NotificationService`, `InvestmentPlanService` and
`ReferralService` that the claims exercise. -/

/-- Investment plan families. -/
inductive PlanType where
  | Basic
  | Special
  | Premium
deriving DecidableEq, Repr

/-- Purchased-product status. -/
inductive PStatus where
  | Active
  | Completed
deriving DecidableEq, Repr

/-- Transaction types. -/
inductive TxnType where
  | Deposit
  | Withdrawal
  | Investment
  | AdminAdd
  | AdminDeduct
  | ReferralBonus
deriving DecidableEq, Repr

/-- A user document (the `AppUser` fields the claims need; `balance` and
`referralEarnings` default to 0 where the source uses `|| 0`). -/
structure UserR where
  balance : ℚ
  referralEarnings : ℚ
  referredBy : Option Nat
  hasDeposited : Bool
deriving DecidableEq, Repr

/-- A transaction record (timestamps and display-only fields omitted). -/
structure Txn where
  userId : Nat
  ttype : TxnType
  amount : ℚ
  description : String
  referralUserId : Option Nat
deriving DecidableEq, Repr

/-- A purchased product (fields the payout logic reads; dates are integer
milliseconds). -/
structure Product where
  pid : Nat
  userId : Nat
  pname : String
  price : ℚ
  dailyEarning : ℚ
  totalEarning : ℚ
  startDate : Int
  endDate : Int
  lastPayoutDate : Option Int
  status : PStatus
  planType : PlanType
deriving DecidableEq, Repr

/-- Status of a milestone reward claim record. -/
inductive RStatus where
  | pending
  | claimed
deriving DecidableEq, Repr

/-- A record of the `referral_rewards` collection. -/
structure RewardClaim where
  userId : Nat
  milestoneTarget : Nat
  amount : ℚ
  status : RStatus
deriving DecidableEq, Repr

/-- A notification (only the recipient is kept). -/
structure Notif where
  userId : Nat
deriving DecidableEq, Repr

/-- The persisted collections the claims touch. -/
structure St where
  users : List (Nat × UserR)
  txns : List Txn
  products : List Product
  rewards : List RewardClaim
  notifs : List Notif
deriving DecidableEq, Repr

/-- `UserService.getUserById`: point read. -/
def St.getUser (s : St) (uid : Nat) : Option UserR :=
  ((s.users.find? (fun p => p.1 = uid)).map (·.2))

/-- `UserService.saveUser`: `setDoc` create-or-overwrite of the user
document. -/
def St.saveUser (s : St) (uid : Nat) (u : UserR) : St :=
  if s.users.any (fun p => p.1 = uid) then
    { s with users := s.users.map (fun p => if p.1 = uid then (uid, u) else p) }
  else
    { s with users := s.users ++ [(uid, u)] }

/-- `TransactionService.createTransaction`: `addDoc` append. -/
def St.addTxn (s : St) (t : Txn) : St :=
  { s with txns := s.txns ++ [t] }

/-- `NotificationService.createNotification`: `addDoc` append. -/
def St.addNotif (s : St) (uid : Nat) : St :=
  { s with notifs := s.notifs ++ [⟨uid⟩] }

/-- Append a `referral_rewards` record (`addDoc`). -/
def St.addReward (s : St) (r : RewardClaim) : St :=
  { s with rewards := s.rewards ++ [r] }

/-- `TransactionService.getTransactionsByUser`: filter by `userId`. -/
def getTransactionsByUser (s : St) (uid : Nat) : List Txn :=
  s.txns.filter (fun t => t.userId = uid)

/-- `ProductService.getUserProducts`: filter by `userId` (the in-memory
sort by purchase date does not matter to any claim and is omitted). -/
def getUserProducts (s : St) (uid : Nat) : List Product :=
  s.products.filter (fun p => p.userId = uid)

/-- `ProductService.getAllActiveProducts`: query `status == 'Active'`. -/
def getAllActiveProducts (s : St) : List Product :=
  s.products.filter (fun p => p.status = PStatus.Active)

/-- `ProductService.updateProductStatus`: field update by product id. -/
def updateProductStatus (s : St) (pid : Nat) (st : PStatus) : St :=
  { s with products :=
      s.products.map (fun q => if q.pid = pid then { q with status := st } else q) }

/-- `ProductService.updateProductPayoutDate`: field update by product id. -/
def updateProductPayoutDate (s : St) (pid : Nat) (d : Int) : St :=
  { s with products :=
      s.products.map (fun q => if q.pid = pid then { q with lastPayoutDate := some d } else q) }

/-- `InvestmentPlanService.addToUserBalance`: read-modify-write of the
user's balance; a no-op when the user document is absent. -/
def addToUserBalance (s : St) (uid : Nat) (amount : ℚ) : St :=
  match s.getUser uid with
  | none => s
  | some u => s.saveUser uid { u with balance := u.balance + amount }

/-- One day in milliseconds (`1000 * 60 * 60 * 24`). -/
def dayMs : Int := 86400000

/-- `Math.floor((now - lastPayout) / dayMs)`: floor division. -/
def daysSince (now lastPayout : Int) : Int :=
  (now - lastPayout).fdiv dayMs

/-- The transaction recorded by a daily payout of `p`. -/
def dailyTxnOf (p : Product) : Txn :=
  { userId := p.userId, ttype := TxnType.Investment, amount := p.dailyEarning,
    description := "Daily payout from " ++ p.pname, referralUserId := none }

/-- `InvestmentPlanService.processDailyPayout` (source lines 1231-1263):
if at least one full day elapsed since `lastPayoutDate ?? startDate`,
Special plans credit `dailyEarning` and record a transaction; all plan
types then advance `lastPayoutDate` to `now`. -/
def processDailyPayout (p : Product) (now : Int) (s : St) : St :=
  let lastPayout := p.lastPayoutDate.getD p.startDate
  if 1 ≤ daysSince now lastPayout then
    let s1 :=
      if p.planType = PlanType.Special then
        (addToUserBalance s p.userId p.dailyEarning).addTxn (dailyTxnOf p)
      else s
    updateProductPayoutDate s1 p.pid now
  else s

/-- The final payout of a completing plan: Basic and Premium pay
`totalEarning`, Special pays `price` (source lines 1274-1283). -/
def finalPayoutOf (p : Product) : ℚ :=
  match p.planType with
  | PlanType.Basic => p.totalEarning
  | PlanType.Premium => p.totalEarning
  | PlanType.Special => p.price

/-- The transaction recorded by a plan completion. -/
def completionTxnOf (p : Product) : Txn :=
  { userId := p.userId, ttype := TxnType.Investment, amount := finalPayoutOf p,
    description := "Plan completion payout from " ++ p.pname, referralUserId := none }

/-- `InvestmentPlanService.completePlan` (source lines 1266-1301): credit
the final payout, record a transaction, mark the plan Completed. -/
def completePlan (p : Product) (s : St) : St :=
  let s1 := addToUserBalance s p.userId (finalPayoutOf p)
  let s2 := s1.addTxn (completionTxnOf p)
  updateProductStatus s2 p.pid PStatus.Completed

/-- The per-product dispatch of `InvestmentPlanService.processDailyPayouts`
(source lines 1209-1224): skip completed or not-yet-started products,
complete expired ones, otherwise process the daily payout. -/
def payoutStep (now : Int) (s : St) (p : Product) : St :=
  if p.status = PStatus.Completed ∨ now < p.startDate then s
  else if p.endDate ≤ now then completePlan p s
  else processDailyPayout p now s

/-- `InvestmentPlanService.processDailyPayouts`: iterate the dispatch over
the snapshot of all Active products. -/
def processDailyPayouts (now : Int) (s : St) : St :=
  (getAllActiveProducts s).foldl (payoutStep now) s

/-! ## Referral bonus engine (`ReferralService`) -/

/-- The deduplication predicate of the idempotency guard: a
`Referral_Bonus` transaction whose `referralUserId` is this user. -/
def matchesBonusFor (uid : Nat) (t : Txn) : Bool :=
  decide (t.ttype = TxnType.ReferralBonus ∧ t.referralUserId = some uid)

/-- Whether a `Referral_Bonus` transaction with `referralUserId == uid`
already exists in `refBy`'s transaction log (source lines 1467-1470). -/
def alreadyPaidReferral (s : St) (refBy uid : Nat) : Bool :=
  (getTransactionsByUser s refBy).any (matchesBonusFor uid)

/-- `ReferralService.processLevel1ReferralBonus` (source lines 1495-1540):
pay the direct referrer `Math.round(0.19 * depositAmount)` when positive. -/
def processLevel1ReferralBonus (uid refBy : Nat) (amount : ℚ) (s : St) : St :=
  match s.getUser refBy with
  | none => s
  | some referrer =>
    let bonus : ℚ := (jsRound (amount * (19/100)) : ℤ)
    if 0 < bonus then
      let s1 := s.saveUser refBy
        { referrer with balance := referrer.balance + bonus,
                        referralEarnings := referrer.referralEarnings + bonus }
      let s2 := s1.addTxn
        { userId := refBy, ttype := TxnType.ReferralBonus, amount := bonus,
          description := "Level 1 referral bonus for first deposit",
          referralUserId := some uid }
      s2.addNotif refBy
    else s

/-- `ReferralService.processLevel2ReferralBonus` (source lines 1543-1586):
walk one more `referredBy` hop and pay `Math.round(0.02 * depositAmount)`
when positive. -/
def processLevel2ReferralBonus (uid refBy : Nat) (amount : ℚ) (s : St) : St :=
  match s.getUser refBy with
  | none => s
  | some l1 =>
    match l1.referredBy with
    | none => s
    | some r2 =>
      match s.getUser r2 with
      | none => s
      | some l2 =>
        let bonus : ℚ := (jsRound (amount * (2/100)) : ℤ)
        if 0 < bonus then
          let s1 := s.saveUser r2
            { l2 with balance := l2.balance + bonus,
                      referralEarnings := l2.referralEarnings + bonus }
          let s2 := s1.addTxn
            { userId := r2, ttype := TxnType.ReferralBonus, amount := bonus,
              description := "Level 2 referral bonus for first deposit",
              referralUserId := some uid }
          s2.addNotif r2
        else s

/-- `ReferralService.processLevel3ReferralBonus` (source lines 1589-1637):
walk two more `referredBy` hops and pay `Math.round(0.01 * depositAmount)`
when positive. -/
def processLevel3ReferralBonus (uid refBy : Nat) (amount : ℚ) (s : St) : St :=
  match s.getUser refBy with
  | none => s
  | some l1 =>
    match l1.referredBy with
    | none => s
    | some r2 =>
      match s.getUser r2 with
      | none => s
      | some l2 =>
        match l2.referredBy with
        | none => s
        | some r3 =>
          match s.getUser r3 with
          | none => s
          | some l3 =>
            let bonus : ℚ := (jsRound (amount * (1/100)) : ℤ)
            if 0 < bonus then
              let s1 := s.saveUser r3
                { l3 with balance := l3.balance + bonus,
                          referralEarnings := l3.referralEarnings + bonus }
              let s2 := s1.addTxn
                { userId := r3, ttype := TxnType.ReferralBonus, amount := bonus,
                  description := "Level 3 referral bonus for first deposit",
                  referralUserId := some uid }
              s2.addNotif r3
            else s

/-- `ReferralService.processDepositReferralBonus` (source lines 1458-1492):
no-op without a referrer or when the bonus was already paid; otherwise the
three levels run in sequence. -/
def processDepositReferralBonus (uid : Nat) (amount : ℚ) (s : St) : St :=
  match s.getUser uid with
  | none => s
  | some u =>
    match u.referredBy with
    | none => s
    | some refBy =>
      if alreadyPaidReferral s refBy uid then s
      else
        processLevel3ReferralBonus uid refBy amount
          (processLevel2ReferralBonus uid refBy amount
            (processLevel1ReferralBonus uid refBy amount s))

/-! ## Failure-injected referral processing

The three per-level calls are sequential `await`s inside one `try` block
whose `catch` re-throws (source lines 1459-1491); none of the level
functions catches internally.  To settle the failure-isolation claim, each
level is given a fault flag meaning "the balance write
(`UserService.saveUser`) of this level throws"; a throw happens before the
write takes effect and propagates out exactly as the `try`/`catch`
structure dictates.  The boolean paired with the state records whether the
overall call threw. -/

/-- Level 1 with an injected `saveUser` fault. -/
def processLevel1ReferralBonusF (fault : Bool) (uid refBy : Nat) (amount : ℚ)
    (s : St) : St × Bool :=
  match s.getUser refBy with
  | none => (s, false)
  | some referrer =>
    let bonus : ℚ := (jsRound (amount * (19/100)) : ℤ)
    if 0 < bonus then
      if fault then (s, true)
      else
        let s1 := s.saveUser refBy
          { referrer with balance := referrer.balance + bonus,
                          referralEarnings := referrer.referralEarnings + bonus }
        let s2 := s1.addTxn
          { userId := refBy, ttype := TxnType.ReferralBonus, amount := bonus,
            description := "Level 1 referral bonus for first deposit",
            referralUserId := some uid }
        (s2.addNotif refBy, false)
    else (s, false)

/-- Level 2 with an injected `saveUser` fault. -/
def processLevel2ReferralBonusF (fault : Bool) (uid refBy : Nat) (amount : ℚ)
    (s : St) : St × Bool :=
  match s.getUser refBy with
  | none => (s, false)
  | some l1 =>
    match l1.referredBy with
    | none => (s, false)
    | some r2 =>
      match s.getUser r2 with
      | none => (s, false)
      | some l2 =>
        let bonus : ℚ := (jsRound (amount * (2/100)) : ℤ)
        if 0 < bonus then
          if fault then (s, true)
          else
            let s1 := s.saveUser r2
              { l2 with balance := l2.balance + bonus,
                        referralEarnings := l2.referralEarnings + bonus }
            let s2 := s1.addTxn
              { userId := r2, ttype := TxnType.ReferralBonus, amount := bonus,
                description := "Level 2 referral bonus for first deposit",
                referralUserId := some uid }
            (s2.addNotif r2, false)
        else (s, false)

/-- Level 3 with an injected `saveUser` fault. -/
def processLevel3ReferralBonusF (fault : Bool) (uid refBy : Nat) (amount : ℚ)
    (s : St) : St × Bool :=
  match s.getUser refBy with
  | none => (s, false)
  | some l1 =>
    match l1.referredBy with
    | none => (s, false)
    | some r2 =>
      match s.getUser r2 with
      | none => (s, false)
      | some l2 =>
        match l2.referredBy with
        | none => (s, false)
        | some r3 =>
          match s.getUser r3 with
          | none => (s, false)
          | some l3 =>
            let bonus : ℚ := (jsRound (amount * (1/100)) : ℤ)
            if 0 < bonus then
              if fault then (s, true)
              else
                let s1 := s.saveUser r3
                  { l3 with balance := l3.balance + bonus,
                            referralEarnings := l3.referralEarnings + bonus }
                let s2 := s1.addTxn
                  { userId := r3, ttype := TxnType.ReferralBonus, amount := bonus,
                    description := "Level 3 referral bonus for first deposit",
                    referralUserId := some uid }
                (s2.addNotif r3, false)
            else (s, false)

/-- `processDepositReferralBonus` with per-level fault flags: a throw at
any level aborts the remaining levels and propagates (`true` in the second
component), mirroring the sequential `await`s in the re-throwing `try`. -/
def processDepositReferralBonusF (f1 f2 f3 : Bool) (uid : Nat) (amount : ℚ)
    (s : St) : St × Bool :=
  match s.getUser uid with
  | none => (s, false)
  | some u =>
    match u.referredBy with
    | none => (s, false)
    | some refBy =>
      if alreadyPaidReferral s refBy uid then (s, false)
      else
        let r1 := processLevel1ReferralBonusF f1 uid refBy amount s
        if r1.2 then (r1.1, true)
        else
          let r2 := processLevel2ReferralBonusF f2 uid refBy amount r1.1
          if r2.2 then (r2.1, true)
          else processLevel3ReferralBonusF f3 uid refBy amount r2.1

/-! ## Milestone reward engine (`ReferralService`, VIP event system) -/

/-- One entry of the static milestone ladder. -/
structure MilestoneCfg where
  mid : String
  target : Nat
  reward : ℚ
deriving DecidableEq, Repr

/-- `getMilestoneConfig` (source lines 1743-1759). -/
def milestoneConfig : List MilestoneCfg :=
  [⟨"VIP1", 5, 1000⟩, ⟨"VIP2", 15, 5000⟩, ⟨"VIP3", 30, 9000⟩,
   ⟨"VIP4", 50, 20000⟩, ⟨"VIP5", 70, 30000⟩, ⟨"VIP6", 130, 60000⟩,
   ⟨"VIP7", 250, 100000⟩, ⟨"VIP8", 300, 120000⟩, ⟨"VIP9", 400, 150000⟩,
   ⟨"VIP10", 500, 200000⟩, ⟨"VIP11", 900, 250000⟩, ⟨"VIP12", 1200, 320000⟩,
   ⟨"VIP13", 2000, 400000⟩]

/-- Status reported for one milestone tier. -/
inductive MStatus where
  | locked
  | claimable
  | claimed
deriving DecidableEq, Repr

/-- One reported milestone row. -/
structure MilestoneStat where
  mid : String
  target : Nat
  reward : ℚ
  status : MStatus
deriving DecidableEq, Repr

/-- `getValidReferralCount` (source lines 1762-1779): direct referrals
that have deposited and own at least one purchased product. -/
def getValidReferralCount (s : St) (uid : Nat) : Nat :=
  ((s.users.filter (fun p => p.2.referredBy = some uid)).filter
    (fun p => p.2.hasDeposited ∧ 0 < (getUserProducts s p.1).length)).length

/-- The targets with a `claimed` reward record for this user (the
`claimedTargets` set, source lines 1801-1813). -/
def claimedTargetsOf (s : St) (uid : Nat) : List Nat :=
  ((s.rewards.filter
      (fun r => decide (r.userId = uid ∧ r.status = RStatus.claimed))).map
    (·.milestoneTarget))

/-- Accumulator of the milestone loop: rows built so far, the pending
`nextTarget`, and the `allPreviousClaimed` flag. -/
structure MSAcc where
  rows : List MilestoneStat
  nextTarget : Option Nat
  allPrev : Bool
deriving DecidableEq, Repr

/-- One iteration of the milestone loop (source lines 1825-1846). -/
def msStep (valid : Nat) (cl : List Nat) (acc : MSAcc) (m : MilestoneCfg) : MSAcc :=
  let isCl := cl.contains m.target
  let status : MStatus :=
    if isCl then MStatus.claimed
    else if m.target ≤ valid ∧ acc.allPrev then MStatus.claimable
    else MStatus.locked
  let nt :=
    if ¬isCl ∧ ¬(m.target ≤ valid ∧ acc.allPrev) ∧ valid < m.target ∧
        acc.nextTarget = none
    then some m.target else acc.nextTarget
  { rows := acc.rows ++ [⟨m.mid, m.target, m.reward, status⟩],
    nextTarget := nt,
    allPrev := acc.allPrev && isCl }

/-- Structural form of the milestone loop: the row list it builds,
threading the `allPreviousClaimed` flag (proved equal to the `foldl` of
`msStep` below). -/
def msRows (valid : Nat) (cl : List Nat) (allPrev : Bool) :
    List MilestoneCfg → List MilestoneStat
  | [] => []
  | m :: rest =>
    ⟨m.mid, m.target, m.reward,
      if cl.contains m.target then MStatus.claimed
      else if m.target ≤ valid ∧ allPrev then MStatus.claimable
      else MStatus.locked⟩ ::
      msRows valid cl (allPrev && cl.contains m.target) rest

/-- Result of `getReferralMilestoneStatus`. -/
structure MilestoneStatusRes where
  validReferrals : Nat
  milestones : List MilestoneStat
  nextTarget : Option Nat
deriving DecidableEq, Repr

/-- `ReferralService.getReferralMilestoneStatus` (source lines 1782-1861). -/
def getReferralMilestoneStatus (s : St) (uid : Nat) : MilestoneStatusRes :=
  let valid := getValidReferralCount s uid
  let cl := claimedTargetsOf s uid
  let acc := milestoneConfig.foldl (msStep valid cl) ⟨[], none, true⟩
  ⟨valid, acc.rows, acc.nextTarget⟩

/-- A `{ success, message }` result. -/
structure ClaimRes where
  success : Bool
  message : String
deriving DecidableEq, Repr

/-- `ReferralService.claimReferralMilestone` (source lines 1864-1942);
the dynamic interpolation of the reward into the success message is
replaced by a fixed success string (no claim depends on it). -/
def claimReferralMilestone (uid target : Nat) (s : St) : ClaimRes × St :=
  match milestoneConfig.find? (fun m => m.target = target) with
  | none => (⟨false, "Invalid milestone"⟩, s)
  | some m =>
    let res := getReferralMilestoneStatus s uid
    match res.milestones.find? (fun row => row.target = target) with
    | none => (⟨false, "Milestone is not claimable yet"⟩, s)
    | some cur =>
      if cur.status ≠ MStatus.claimable then
        (⟨false, "Milestone is not claimable yet"⟩, s)
      else if res.validReferrals < target then
        (⟨false, "Referral target not reached"⟩, s)
      else if res.milestones.any
          (fun row => decide (row.target < target ∧ row.status ≠ MStatus.claimed)) then
        (⟨false, "Please claim previous milestones first"⟩, s)
      else if s.rewards.any
          (fun r => decide (r.userId = uid ∧ r.milestoneTarget = target ∧
            r.status = RStatus.claimed)) then
        (⟨false, "Milestone already claimed"⟩, s)
      else
        match s.getUser uid with
        | none => (⟨false, "User not found"⟩, s)
        | some u =>
          let s1 := s.saveUser uid { u with balance := u.balance + m.reward }
          let s2 := s1.addReward ⟨uid, target, m.reward, RStatus.claimed⟩
          let s3 := s2.addTxn
            { userId := uid, ttype := TxnType.ReferralBonus, amount := m.reward,
              description := "Referral milestone reward", referralUserId := none }
          (⟨true, "Successfully claimed reward"⟩, s3)

/-- Auxiliary store well-formedness. -/
def InvState.good (s : InvState) : Prop :=
  (∀ d, s.specialDoc = some d → docGood d) ∧
    (∀ d, s.premiumDoc = some d → docGood d)

instance : DecidablePred docOk := fun d =>
  decidable_of_iff (∀ e ∈ d, e.2.purchased ≤ e.2.total) Iff.rfl

instance : DecidablePred docGood := fun _ => instDecidableAnd

/-- A concrete Special plan one day into its term, used to instantiate the
daily-payout theorem. -/
def sampleSpecialPlan : Product :=
  ⟨1, 7, "sp", 3000, 117, 45705, 0, 31536000000, none, PStatus.Active,
    PlanType.Special⟩

/-- A one-user store holding `sampleSpecialPlan`. -/
def sampleStore : St :=
  ⟨[(7, ⟨0, 0, none, true⟩)], [], [sampleSpecialPlan], [], []⟩

/-- A concrete Special plan whose end date has been reached, used to
instantiate the expiry-sweep theorem. -/
def expiredSpecialPlan : Product :=
  ⟨2, 9, "meal", 3000, 117, 45705, 0, 86400000, none, PStatus.Active,
    PlanType.Special⟩

/-- A one-user store holding `expiredSpecialPlan`. -/
def expiredStore : St :=
  ⟨[(9, ⟨5, 0, none, true⟩)], [], [expiredSpecialPlan], [], []⟩

/-! ## Lemmas and theorems -/

lemma InvState.good_ok {s : InvState} (h : s.good) : s.ok :=
  ⟨fun d hd => (h.1 d hd).1, fun d hd => (h.2 d hd).1⟩

lemma docFind_cons (x : String × ProdEntry) (xs : InventoryDoc) (pid : String) :
    docFind (x :: xs) pid = if x.1 = pid then some x.2 else docFind xs pid := by
  by_cases h : x.1 = pid <;> simp [docFind, List.find?_cons, h]

lemma docSetPurchased_keys (d : InventoryDoc) (pid : String) (v : Nat) :
    (docSetPurchased d pid v).map Prod.fst = d.map Prod.fst := by
  unfold docSetPurchased
  rw [List.map_map]
  apply List.map_congr_left
  intro e _
  by_cases h : e.1 = pid <;> simp [h]

lemma docFind_setPurchased_self (d : InventoryDoc) (pid : String) (v : Nat) :
    docFind (docSetPurchased d pid v) pid =
      (docFind d pid).map (fun e => { e with purchased := v }) := by
  induction d with
  | nil => rfl
  | cons x xs ih =>
    by_cases h : x.1 = pid
    · simp [docSetPurchased, docFind_cons, h]
    · simpa [docSetPurchased, docFind_cons, h] using ih

lemma docFind_setPurchased_other (d : InventoryDoc) (pid pid2 : String) (v : Nat)
    (hne : pid2 ≠ pid) :
    docFind (docSetPurchased d pid v) pid2 = docFind d pid2 := by
  induction d with
  | nil => rfl
  | cons x xs ih =>
    by_cases h : x.1 = pid
    · have hx2 : x.1 ≠ pid2 := fun hc => hne (hc ▸ h)
      simp only [docSetPurchased, List.map_cons, docFind_cons, if_pos h]
      rw [show ((x.1, { x.2 with purchased := v }) : String × ProdEntry).1 = x.1 from rfl]
      rw [if_neg hx2, if_neg hx2]
      exact ih
    · simp only [docSetPurchased, List.map_cons, docFind_cons, if_neg h]
      by_cases h2 : x.1 = pid2
      · rw [if_pos h2, if_pos h2]
      · rw [if_neg h2, if_neg h2]
        exact ih

lemma docFind_unique (d : InventoryDoc) (pid : String)
    (hnd : (d.map Prod.fst).Nodup) (e0 : ProdEntry) (h : docFind d pid = some e0) :
    ∀ e ∈ d, e.1 = pid → e.2 = e0 := by
  induction d with
  | nil => simp
  | cons x xs ih =>
    rw [docFind_cons] at h
    simp only [List.map_cons, List.nodup_cons] at hnd
    intro e he hpid
    rcases List.mem_cons.mp he with rfl | hmem
    · rw [if_pos hpid] at h
      exact Option.some_injective _ h
    · by_cases hx : x.1 = pid
      · exfalso
        apply hnd.1
        have hm : e.1 ∈ xs.map Prod.fst := List.mem_map_of_mem Prod.fst hmem
        rwa [hpid, ← hx] at hm
      · rw [if_neg hx] at h
        exact ih hnd.2 h e hmem hpid

lemma docSetPurchased_ok (d : InventoryDoc) (pid : String) (v : Nat)
    (hok : docOk d) (hb : ∀ e ∈ d, e.1 = pid → v ≤ e.2.total) :
    docOk (docSetPurchased d pid v) := by
  intro e' he'
  rcases List.mem_map.mp he' with ⟨e, he, rfl⟩
  by_cases h : e.1 = pid
  · simpa [h] using hb e he h
  · simpa [h] using hok e he

lemma docSetPurchased_good (d : InventoryDoc) (pid : String) (v : Nat)
    (hg : docGood d) (hb : ∀ e ∈ d, e.1 = pid → v ≤ e.2.total) :
    docGood (docSetPurchased d pid v) :=
  ⟨docSetPurchased_ok d pid v hg.1 hb, (docSetPurchased_keys d pid v).symm ▸ hg.2⟩

lemma InvState.getDoc_good {s : InvState} (h : s.good) {t : PType}
    {d : InventoryDoc} (hd : s.getDoc t = some d) : docGood d := by
  cases t
  · exact h.1 d hd
  · exact h.2 d hd

lemma InvState.setDoc_good {s : InvState} (h : s.good) {t : PType}
    {d : InventoryDoc} (hd : docGood d) : (s.setDoc t d).good := by
  cases t
  · exact ⟨fun d' hd' => (Option.some_injective _ hd') ▸ hd, h.2⟩
  · exact ⟨h.1, fun d' hd' => (Option.some_injective _ hd') ▸ hd⟩

lemma InvState.setDoc_marker (s : InvState) (t : PType) (d : InventoryDoc) :
    (s.setDoc t d).marker = s.marker := by
  cases t <;> rfl

lemma invEmpty_good : invEmpty.good := by
  constructor <;> intro d hd <;> simp [invEmpty] at hd

lemma initializeInventory_good {s : InvState} (h : s.good) :
    (initializeInventory s).good := by
  unfold initializeInventory
  split
  · exact h
  · constructor <;> intro d hd <;> simp at hd <;> subst hd <;> decide

lemma initializeInventory_marker (s : InvState) :
    (initializeInventory s).marker = true := by
  unfold initializeInventory
  split
  · assumption
  · rfl

lemma initializeInventory_of_marker {s : InvState} (h : s.marker = true) :
    initializeInventory s = s := by
  simp [initializeInventory, h]

lemma increasePurchasedCount_good {s : InvState} (h : s.good)
    (pid : String) (t : PType) : ((increasePurchasedCount pid t s).2).good := by
  unfold increasePurchasedCount
  have h1 : (initializeInventory s).good := initializeInventory_good h
  cases hdoc : (initializeInventory s).getDoc t with
  | none => simpa [hdoc] using h1
  | some inv =>
    have hg : docGood inv := InvState.getDoc_good h1 hdoc
    cases hfind : docFind inv pid with
    | none => simpa [hdoc, hfind] using h1
    | some e =>
      by_cases hfull : e.total ≤ e.purchased
      · simpa [hdoc, hfind, hfull] using h1
      · have hb : ∀ e' ∈ inv, e'.1 = pid → e.purchased + 1 ≤ e'.2.total := by
          intro e' he' hpid
          have := docFind_unique inv pid hg.2 e hfind e' he' hpid
          rw [this]
          omega
        have hnew : docGood (docSetPurchased inv pid (e.purchased + 1)) :=
          docSetPurchased_good inv pid _ hg hb
        simpa [hdoc, hfind, hfull] using InvState.setDoc_good h1 hnew

lemma restoreInventory_good {s : InvState} (h : s.good) (t : PType) :
    (restoreInventory t s).good := by
  unfold restoreInventory
  cases hdoc : s.getDoc t with
  | none => exact h
  | some inv =>
    have hg : docGood inv := InvState.getDoc_good h hdoc
    apply InvState.setDoc_good h
    constructor
    · intro e' he'
      rcases List.mem_map.mp he' with ⟨e, _, rfl⟩
      simp
    · have hkeys : ((inv.map (fun e : String × ProdEntry =>
          (e.1, { e.2 with purchased := 0 }))).map Prod.fst) = inv.map Prod.fst := by
        rw [List.map_map]
        rfl
      rw [hkeys]
      exact hg.2

lemma applyInvOp_good {s : InvState} (h : s.good) (op : InvOp) :
    (applyInvOp s op).good := by
  cases op with
  | init => exact initializeInventory_good h
  | inc pid t => exact increasePurchasedCount_good h pid t
  | restore t => exact restoreInventory_good h t

lemma runInvOps_good (ops : List InvOp) : (runInvOps ops).good := by
  have key : ∀ (l : List InvOp) (s : InvState), s.good →
      (l.foldl applyInvOp s).good := by
    intro l
    induction l with
    | nil => intro s h; exact h
    | cons op rest ih =>
      intro s h
      exact ih _ (applyInvOp_good h op)
  exact key ops invEmpty invEmpty_good

/-- Claim C1, counterexample: the claim asserts that a call to
`increasePurchasedCount` when the inventory document is absent returns
false and leaves the inventory state unchanged; but on the empty store
(no documents at all) a call for the known product `special-1` lazily
initializes the inventory, returns `true`, and changes the state. -/
theorem c1_counterexample :
    (increasePurchasedCount "special-1" PType.special invEmpty).1 = true ∧
      (increasePurchasedCount "special-1" PType.special invEmpty).2 ≠ invEmpty := by
  decide

/-- C1 (amended): over every sequence of `initializeInventory`,
`increasePurchasedCount` and `restoreInventory` calls starting from the
empty store, every inventory entry satisfies `purchased ≤ total`.  Once
the inventory is initialized (the marker document exists), a call with
`purchased = total` returns false and leaves the state unchanged, as does
a call when the per-type document or the product id is absent; a
successful call returns true and increments exactly the target product's
purchased count by 1, leaving every other product untouched.  On an
uninitialized store, however, the call first performs the lazy
initialization (a state mutation) — afterwards the marker always exists. -/
theorem c1_inventory_amended :
    (∀ ops : List InvOp, (runInvOps ops).ok) ∧
    (∀ (s : InvState) (pid : String) (t : PType), s.marker = true →
      (∀ inv e, s.getDoc t = some inv → docFind inv pid = some e →
        e.purchased = e.total → increasePurchasedCount pid t s = (false, s)) ∧
      (s.getDoc t = none → increasePurchasedCount pid t s = (false, s)) ∧
      (∀ inv, s.getDoc t = some inv → docFind inv pid = none →
        increasePurchasedCount pid t s = (false, s)) ∧
      (∀ inv e, s.getDoc t = some inv → docFind inv pid = some e →
        e.purchased < e.total →
        increasePurchasedCount pid t s =
          (true, s.setDoc t (docSetPurchased inv pid (e.purchased + 1))) ∧
        docFind (docSetPurchased inv pid (e.purchased + 1)) pid =
          some { e with purchased := e.purchased + 1 } ∧
        (∀ pid2, pid2 ≠ pid →
          docFind (docSetPurchased inv pid (e.purchased + 1)) pid2 =
            docFind inv pid2))) ∧
    (∀ (s : InvState) (pid : String) (t : PType),
      ((increasePurchasedCount pid t s).2).marker = true) := by
  refine ⟨fun ops => InvState.good_ok (runInvOps_good ops), ?_, ?_⟩
  · intro s pid t hm
    have hinit : initializeInventory s = s := initializeInventory_of_marker hm
    refine ⟨?_, ?_, ?_, ?_⟩
    · intro inv e hdoc hfind heq
      simp only [increasePurchasedCount, hinit, hdoc, hfind]
      rw [if_pos (le_of_eq heq.symm)]
    · intro hdoc
      simp only [increasePurchasedCount, hinit, hdoc]
    · intro inv hdoc hfind
      simp only [increasePurchasedCount, hinit, hdoc, hfind]
    · intro inv e hdoc hfind hlt
      refine ⟨?_, ?_, ?_⟩
      · simp only [increasePurchasedCount, hinit, hdoc, hfind]
        rw [if_neg (not_le.mpr hlt)]
      · rw [docFind_setPurchased_self, hfind]
        rfl
      · intro pid2 hne
        exact docFind_setPurchased_other inv pid pid2 _ hne
  · intro s pid t
    unfold increasePurchasedCount
    cases hdoc : (initializeInventory s).getDoc t with
    | none => simpa [hdoc] using initializeInventory_marker s
    | some inv =>
      cases hfind : docFind inv pid with
      | none => simp [hdoc, hfind, initializeInventory_marker]
      | some e =>
        by_cases hfull : e.total ≤ e.purchased
        · simp [hdoc, hfind, hfull, initializeInventory_marker]
        · simp [hdoc, hfind, hfull, InvState.setDoc_marker,
            initializeInventory_marker]

/-- Witness for C1: the amended theorem applied at concrete inputs — one
`init` run keeps the invariant, and from the freshly initialized store a
successful purchase of the last `Special 11` unit increments it to 1. -/
theorem c1_witness :
    (runInvOps [InvOp.init]).ok ∧
    (initializeInventory invEmpty).marker = true ∧
    (initializeInventory invEmpty).getDoc PType.special = some specialSeed ∧
    docFind specialSeed "special-11" = some ⟨0, 1, "Special 11"⟩ ∧
    (0 : Nat) < 1 ∧
    increasePurchasedCount "special-11" PType.special (initializeInventory invEmpty) =
      (true, (initializeInventory invEmpty).setDoc PType.special
        (docSetPurchased specialSeed "special-11" 1)) :=
  ⟨c1_inventory_amended.1 [InvOp.init], by decide, by decide, by decide, by decide,
    ((c1_inventory_amended.2.1 (initializeInventory invEmpty) "special-11"
        PType.special (by decide)).2.2.2 specialSeed ⟨0, 1, "Special 11"⟩
        (by decide) (by decide) (by decide)).1⟩

lemma clientStep_cell_ok {c : CPhase} {cell : Cell}
    (h : cell.purchased ≤ cell.total) :
    (clientStep c cell).2.purchased ≤ (clientStep c cell).2.total := by
  cases c with
  | toRead => exact h
  | toWrite v =>
    by_cases hv : cell.total ≤ v
    · simpa [clientStep, hv] using h
    · simp only [clientStep, if_neg hv]
      omega
  | finished r => exact h

lemma sysStep_cell_ok {t : TwoSys} (w : Bool)
    (h : t.cell.purchased ≤ t.cell.total) :
    (sysStep t w).cell.purchased ≤ (sysStep t w).cell.total := by
  cases w
  · simpa [sysStep] using clientStep_cell_ok (c := t.clientB) h
  · simpa [sysStep] using clientStep_cell_ok (c := t.clientA) h

/-- Claim C9, counterexample: the claim asserts the increment is a single
atomic field patch so that interleaved calls cannot oversell; but the
increment reads the count then writes `read + 1` in a second round trip,
and with a single remaining unit (`purchased = 0`, `total = 1`) the
interleaving read-A, read-B, write-A, write-B makes both calls return
true — two successful purchases for one unit. -/
theorem c9_counterexample :
    succCount (runSched [true, false, true, false]
        ⟨⟨0, 1⟩, CPhase.toRead, CPhase.toRead⟩) = 2 ∧
    (runSched [true, false, true, false]
        ⟨⟨0, 1⟩, CPhase.toRead, CPhase.toRead⟩).cell.total = 1 ∧
    (runSched [true, false, true, false]
        ⟨⟨0, 1⟩, CPhase.toRead, CPhase.toRead⟩).cell.purchased = 1 := by
  decide

/-- C9 (amended): the increment is a field-level patch whose written value
is computed from an earlier read (a read-modify-write across two round
trips).  Under every interleaving of two concurrent calls the persisted
count still never exceeds `total` (each write stores `read + 1 ≤ total`),
but a lost update is possible: both calls can return true with only one
unit remaining, so the success count can exceed the available units. -/
theorem c9_interleaving_amended :
    (∀ (sched : List Bool) (t : TwoSys), t.cell.purchased ≤ t.cell.total →
      (runSched sched t).cell.purchased ≤ (runSched sched t).cell.total) ∧
    (succCount (runSched [true, false, true, false]
        ⟨⟨0, 1⟩, CPhase.toRead, CPhase.toRead⟩) = 2 ∧
      (runSched [true, false, true, false]
        ⟨⟨0, 1⟩, CPhase.toRead, CPhase.toRead⟩).cell.purchased = 1) := by
  constructor
  · intro sched
    induction sched with
    | nil => intro t h; exact h
    | cons w rest ih =>
      intro t h
      exact ih (sysStep t w) (sysStep_cell_ok w h)
  · exact ⟨by decide, by decide⟩

/-- Witness for C9: the amended theorem applied to the lost-update
schedule from one remaining unit. -/
theorem c9_witness :
    ((⟨⟨0, 1⟩, CPhase.toRead, CPhase.toRead⟩ : TwoSys).cell.purchased ≤
      (⟨⟨0, 1⟩, CPhase.toRead, CPhase.toRead⟩ : TwoSys).cell.total) ∧
    (runSched [true, false, true, false]
        ⟨⟨0, 1⟩, CPhase.toRead, CPhase.toRead⟩).cell.purchased ≤
      (runSched [true, false, true, false]
        ⟨⟨0, 1⟩, CPhase.toRead, CPhase.toRead⟩).cell.total :=
  ⟨by decide, c9_interleaving_amended.1 [true, false, true, false]
    ⟨⟨0, 1⟩, CPhase.toRead, CPhase.toRead⟩ (by decide)⟩

/-! ### Store frame lemmas -/

lemma findUser_map_self (l : List (Nat × UserR)) (uid : Nat) (u : UserR)
    (h : l.any (fun p => p.1 = uid) = true) :
    (l.map (fun p => if p.1 = uid then (uid, u) else p)).find?
      (fun p => p.1 = uid) = some (uid, u) := by
  induction l with
  | nil => simp at h
  | cons x xs ih =>
    by_cases hx : x.1 = uid
    · simp only [List.map_cons, if_pos hx]
      exact List.find?_cons_of_pos _ (by simp)
    · have h' : xs.any (fun p => p.1 = uid) = true := by
        simp only [List.any_cons, Bool.or_eq_true, decide_eq_true_eq] at h
        rcases h with h | h
        · exact absurd h hx
        · exact h
      simp only [List.map_cons, if_neg hx]
      rw [List.find?_cons_of_neg _ (by simpa using hx)]
      exact ih h'

lemma findUser_map_other (l : List (Nat × UserR)) (uid v : Nat) (u : UserR)
    (h : v ≠ uid) :
    (l.map (fun p => if p.1 = uid then (uid, u) else p)).find?
      (fun p => p.1 = v) = l.find? (fun p => p.1 = v) := by
  induction l with
  | nil => rfl
  | cons x xs ih =>
    by_cases hx : x.1 = uid
    · have hxv : ¬ x.1 = v := fun hc => h (hc ▸ hx)
      simp only [List.map_cons, if_pos hx]
      rw [List.find?_cons_of_neg _ (by simpa using fun hc : uid = v => h hc.symm),
        List.find?_cons_of_neg _ (by simpa using hxv)]
      exact ih
    · simp only [List.map_cons, if_neg hx]
      by_cases hxv : x.1 = v
      · rw [List.find?_cons_of_pos _ (by simpa using hxv),
          List.find?_cons_of_pos _ (by simpa using hxv)]
      · rw [List.find?_cons_of_neg _ (by simpa using hxv),
          List.find?_cons_of_neg _ (by simpa using hxv)]
        exact ih

lemma getUser_saveUser_self (s : St) (uid : Nat) (u : UserR) :
    (s.saveUser uid u).getUser uid = some u := by
  unfold St.saveUser St.getUser
  by_cases h : s.users.any (fun p => p.1 = uid)
  · rw [if_pos h]
    show ((s.users.map (fun p => if p.1 = uid then (uid, u) else p)).find?
      (fun p => p.1 = uid)).map (·.2) = some u
    rw [findUser_map_self _ _ _ h]
    rfl
  · rw [if_neg h]
    show ((s.users ++ [(uid, u)]).find? (fun p => p.1 = uid)).map (·.2) = some u
    have hnone : s.users.find? (fun p => (p.1 = uid : Bool)) = none := by
      rw [List.find?_eq_none]
      intro p hp
      have := List.any_eq_false.mp (Bool.eq_false_iff.mpr h) p hp
      simpa using this
    rw [List.find?_append, hnone]
    simp

lemma getUser_saveUser_other (s : St) (uid v : Nat) (u : UserR) (h : v ≠ uid) :
    (s.saveUser uid u).getUser v = s.getUser v := by
  unfold St.saveUser St.getUser
  by_cases hc : s.users.any (fun p => p.1 = uid)
  · rw [if_pos hc]
    show ((s.users.map (fun p => if p.1 = uid then (uid, u) else p)).find?
      (fun p => p.1 = v)).map (·.2) =
        (s.users.find? (fun p => p.1 = v)).map (·.2)
    rw [findUser_map_other _ _ _ _ h]
  · rw [if_neg hc]
    show ((s.users ++ [(uid, u)]).find? (fun p => p.1 = v)).map (·.2) =
      (s.users.find? (fun p => p.1 = v)).map (·.2)
    rw [List.find?_append]
    cases hf : s.users.find? (fun p => (p.1 = v : Bool)) with
    | some p => rfl
    | none =>
      have : ([(uid, u)].find? (fun p => (p.1 = v : Bool))) = none := by
        simp [List.find?_cons, h.symm]
      simp [this]

lemma getUser_addTxn (s : St) (t : Txn) (v : Nat) :
    (s.addTxn t).getUser v = s.getUser v := rfl

lemma getUser_addNotif (s : St) (uid v : Nat) :
    (s.addNotif uid).getUser v = s.getUser v := rfl

lemma getUser_addReward (s : St) (r : RewardClaim) (v : Nat) :
    (s.addReward r).getUser v = s.getUser v := rfl

lemma txns_saveUser (s : St) (uid : Nat) (u : UserR) :
    (s.saveUser uid u).txns = s.txns := by
  unfold St.saveUser
  split <;> rfl

lemma txns_addNotif (s : St) (uid : Nat) : (s.addNotif uid).txns = s.txns := rfl

lemma txns_addReward (s : St) (r : RewardClaim) :
    (s.addReward r).txns = s.txns := rfl

lemma txns_addTxn (s : St) (t : Txn) : (s.addTxn t).txns = s.txns ++ [t] := rfl

lemma notifs_saveUser (s : St) (uid : Nat) (u : UserR) :
    (s.saveUser uid u).notifs = s.notifs := by
  unfold St.saveUser
  split <;> rfl

lemma notifs_addTxn (s : St) (t : Txn) : (s.addTxn t).notifs = s.notifs := rfl

lemma notifs_addNotif (s : St) (uid : Nat) :
    (s.addNotif uid).notifs = s.notifs ++ [⟨uid⟩] := rfl

lemma products_saveUser (s : St) (uid : Nat) (u : UserR) :
    (s.saveUser uid u).products = s.products := by
  unfold St.saveUser
  split <;> rfl

lemma products_addTxn (s : St) (t : Txn) : (s.addTxn t).products = s.products := rfl

lemma products_addNotif (s : St) (uid : Nat) :
    (s.addNotif uid).products = s.products := rfl

lemma rewards_saveUser (s : St) (uid : Nat) (u : UserR) :
    (s.saveUser uid u).rewards = s.rewards := by
  unfold St.saveUser
  split <;> rfl

lemma rewards_addTxn (s : St) (t : Txn) : (s.addTxn t).rewards = s.rewards := rfl

lemma rewards_addNotif (s : St) (uid : Nat) :
    (s.addNotif uid).rewards = s.rewards := rfl

lemma rewards_addReward (s : St) (r : RewardClaim) :
    (s.addReward r).rewards = s.rewards ++ [r] := rfl

/-! ### Claim C10: zero-amount bonuses are skipped -/

/-- C10: when the rounded bonus at a level equals 0, that level's
processing performs no balance update, creates no transaction and no
notification — it leaves the store entirely unchanged, even when the
ancestor at that level exists; with all three rounded bonuses zero the
whole `processDepositReferralBonus` call is a no-op. -/
theorem c10_zero_bonus_skip :
    (∀ (uid refBy : Nat) (amount : ℚ) (s : St),
      jsRound (amount * (19/100)) = 0 →
      processLevel1ReferralBonus uid refBy amount s = s) ∧
    (∀ (uid refBy : Nat) (amount : ℚ) (s : St),
      jsRound (amount * (2/100)) = 0 →
      processLevel2ReferralBonus uid refBy amount s = s) ∧
    (∀ (uid refBy : Nat) (amount : ℚ) (s : St),
      jsRound (amount * (1/100)) = 0 →
      processLevel3ReferralBonus uid refBy amount s = s) ∧
    (∀ (uid : Nat) (amount : ℚ) (s : St),
      jsRound (amount * (19/100)) = 0 → jsRound (amount * (2/100)) = 0 →
      jsRound (amount * (1/100)) = 0 →
      processDepositReferralBonus uid amount s = s) := by
  have h1 : ∀ (uid refBy : Nat) (amount : ℚ) (s : St),
      jsRound (amount * (19/100)) = 0 →
      processLevel1ReferralBonus uid refBy amount s = s := by
    intro uid refBy amount s h
    unfold processLevel1ReferralBonus
    cases hres : s.getUser refBy with
    | none => rfl
    | some referrer => simp [h]
  have h2 : ∀ (uid refBy : Nat) (amount : ℚ) (s : St),
      jsRound (amount * (2/100)) = 0 →
      processLevel2ReferralBonus uid refBy amount s = s := by
    intro uid refBy amount s h
    unfold processLevel2ReferralBonus
    cases hr1 : s.getUser refBy with
    | none => rfl
    | some l1 =>
      cases hr2 : l1.referredBy with
      | none => simp [hr2]
      | some r2 =>
        cases hr3 : s.getUser r2 with
        | none => simp [hr2, hr3]
        | some l2 => simp [hr2, hr3, h]
  have h3 : ∀ (uid refBy : Nat) (amount : ℚ) (s : St),
      jsRound (amount * (1/100)) = 0 →
      processLevel3ReferralBonus uid refBy amount s = s := by
    intro uid refBy amount s h
    unfold processLevel3ReferralBonus
    cases hr1 : s.getUser refBy with
    | none => rfl
    | some l1 =>
      cases hr2 : l1.referredBy with
      | none => simp [hr2]
      | some r2 =>
        cases hr3 : s.getUser r2 with
        | none => simp [hr2, hr3]
        | some l2 =>
          cases hr4 : l2.referredBy with
          | none => simp [hr2, hr3, hr4]
          | some r3 =>
            cases hr5 : s.getUser r3 with
            | none => simp [hr2, hr3, hr4, hr5]
            | some l3 =>
              simp [hr2, hr3, hr4, hr5]
              intro hpos
              rw [one_div] at h
              rw [h] at hpos
              exact absurd hpos (lt_irrefl 0)
  refine ⟨h1, h2, h3, ?_⟩
  intro uid amount s z1 z2 z3
  unfold processDepositReferralBonus
  cases hu : s.getUser uid with
  | none => rfl
  | some u =>
    cases hr : u.referredBy with
    | none => simp [hr]
    | some refBy =>
      by_cases hp : alreadyPaidReferral s refBy uid
      · simp [hr, hp]
      · simp [hr, hp, h1 uid refBy amount s z1, h2 uid refBy amount s z2,
          h3 uid refBy amount s z3]

/-- Witness for C10: a deposit of 2 rounds every level bonus to 0
(`round(0.38) = round(0.04) = round(0.02) = 0`), and on a three-user
referral chain the level-1 processing changes nothing even though the
ancestor exists. -/
theorem c10_witness :
    jsRound ((2 : ℚ) * (19/100)) = 0 ∧
    jsRound ((2 : ℚ) * (2/100)) = 0 ∧
    jsRound ((2 : ℚ) * (1/100)) = 0 ∧
    processLevel1ReferralBonus 2 1 2
      ⟨[(1, ⟨0, 0, none, false⟩), (2, ⟨0, 0, some 1, true⟩)], [], [], [], []⟩ =
      ⟨[(1, ⟨0, 0, none, false⟩), (2, ⟨0, 0, some 1, true⟩)], [], [], [], []⟩ ∧
    processDepositReferralBonus 2 2
      ⟨[(1, ⟨0, 0, none, false⟩), (2, ⟨0, 0, some 1, true⟩)], [], [], [], []⟩ =
      ⟨[(1, ⟨0, 0, none, false⟩), (2, ⟨0, 0, some 1, true⟩)], [], [], [], []⟩ :=
  ⟨by with_unfolding_all decide, by with_unfolding_all decide,
    by with_unfolding_all decide,
    c10_zero_bonus_skip.1 2 1 2 _ (by with_unfolding_all decide),
    c10_zero_bonus_skip.2.2.2 2 2 _ (by with_unfolding_all decide)
      (by with_unfolding_all decide) (by with_unfolding_all decide)⟩

/-! ### Referral level lemmas -/

lemma level1_run {s : St} {refBy : Nat} {u1 : UserR} (uid : Nat) (amount : ℚ)
    (h1 : s.getUser refBy = some u1)
    (hb : 0 < jsRound (amount * (19/100))) :
    processLevel1ReferralBonus uid refBy amount s =
      ((s.saveUser refBy
        { u1 with
          balance := u1.balance + ((jsRound (amount * (19/100)) : ℤ) : ℚ),
          referralEarnings :=
            u1.referralEarnings + ((jsRound (amount * (19/100)) : ℤ) : ℚ) }).addTxn
        { userId := refBy, ttype := TxnType.ReferralBonus,
          amount := ((jsRound (amount * (19/100)) : ℤ) : ℚ),
          description := "Level 1 referral bonus for first deposit",
          referralUserId := some uid }).addNotif refBy := by
  have hb' : (0 : ℚ) < ((jsRound (amount * (19/100)) : ℤ) : ℚ) := by
    exact_mod_cast hb
  simp [processLevel1ReferralBonus, h1, hb']

lemma level2_run {s : St} {refBy r2 : Nat} {u1 u2 : UserR} (uid : Nat) (amount : ℚ)
    (h1 : s.getUser refBy = some u1) (h2 : u1.referredBy = some r2)
    (h3 : s.getUser r2 = some u2)
    (hb : 0 < jsRound (amount * (2/100))) :
    processLevel2ReferralBonus uid refBy amount s =
      ((s.saveUser r2
        { u2 with
          balance := u2.balance + ((jsRound (amount * (2/100)) : ℤ) : ℚ),
          referralEarnings :=
            u2.referralEarnings + ((jsRound (amount * (2/100)) : ℤ) : ℚ) }).addTxn
        { userId := r2, ttype := TxnType.ReferralBonus,
          amount := ((jsRound (amount * (2/100)) : ℤ) : ℚ),
          description := "Level 2 referral bonus for first deposit",
          referralUserId := some uid }).addNotif r2 := by
  have hb' : (0 : ℚ) < ((jsRound (amount * (2/100)) : ℤ) : ℚ) := by
    exact_mod_cast hb
  simp [processLevel2ReferralBonus, h1, h2, h3, hb']

lemma level3_run {s : St} {refBy r2 r3 : Nat} {u1 u2 u3 : UserR} (uid : Nat)
    (amount : ℚ)
    (h1 : s.getUser refBy = some u1) (h2 : u1.referredBy = some r2)
    (h3 : s.getUser r2 = some u2) (h4 : u2.referredBy = some r3)
    (h5 : s.getUser r3 = some u3)
    (hb : 0 < jsRound (amount * (1/100))) :
    processLevel3ReferralBonus uid refBy amount s =
      ((s.saveUser r3
        { u3 with
          balance := u3.balance + ((jsRound (amount * (1/100)) : ℤ) : ℚ),
          referralEarnings :=
            u3.referralEarnings + ((jsRound (amount * (1/100)) : ℤ) : ℚ) }).addTxn
        { userId := r3, ttype := TxnType.ReferralBonus,
          amount := ((jsRound (amount * (1/100)) : ℤ) : ℚ),
          description := "Level 3 referral bonus for first deposit",
          referralUserId := some uid }).addNotif r3 := by
  have hb' : (0 : ℚ) < ((jsRound (amount * (1/100)) : ℤ) : ℚ) := by
    exact_mod_cast hb
  simp [processLevel3ReferralBonus, h1, h2, h3, h4, h5, hb']
  intro hle
  rw [one_div] at hb
  exact absurd hb (not_lt.mpr hle)

lemma level2_skip_noref {s : St} {refBy : Nat} {w : UserR} (uid : Nat)
    (amount : ℚ) (h : s.getUser refBy = some w) (hn : w.referredBy = none) :
    processLevel2ReferralBonus uid refBy amount s = s := by
  simp [processLevel2ReferralBonus, h, hn]

lemma level3_skip_noref2 {s : St} {refBy : Nat} {w : UserR} (uid : Nat)
    (amount : ℚ) (h : s.getUser refBy = some w) (hn : w.referredBy = none) :
    processLevel3ReferralBonus uid refBy amount s = s := by
  simp [processLevel3ReferralBonus, h, hn]

lemma level3_skip_noref3 {s : St} {refBy r2 : Nat} {w1 w2 : UserR} (uid : Nat)
    (amount : ℚ) (h1 : s.getUser refBy = some w1) (h2 : w1.referredBy = some r2)
    (h3 : s.getUser r2 = some w2) (hn : w2.referredBy = none) :
    processLevel3ReferralBonus uid refBy amount s = s := by
  simp [processLevel3ReferralBonus, h1, h2, h3, hn]

lemma saveUser_referredBy_frame (s : St) (uid : Nat) (u u0 : UserR)
    (hu0 : s.getUser uid = some u0) (hsame : u.referredBy = u0.referredBy)
    (v : Nat) :
    Option.map (fun w => w.referredBy) ((s.saveUser uid u).getUser v) =
      Option.map (fun w => w.referredBy) (s.getUser v) := by
  by_cases hv : v = uid
  · subst hv
    rw [getUser_saveUser_self, hu0]
    simp [hsame]
  · rw [getUser_saveUser_other _ _ _ _ hv]

lemma level1_referredBy_frame (uid refBy : Nat) (amount : ℚ) (s : St) (v : Nat) :
    Option.map (fun w => w.referredBy)
      ((processLevel1ReferralBonus uid refBy amount s).getUser v) =
      Option.map (fun w => w.referredBy) (s.getUser v) := by
  unfold processLevel1ReferralBonus
  cases hg : s.getUser refBy with
  | none => rfl
  | some u1 =>
    by_cases hb : (0 : ℚ) < ((jsRound (amount * (19/100)) : ℤ) : ℚ)
    · simp only [hb, if_pos]
      rw [getUser_addNotif, getUser_addTxn]
      apply saveUser_referredBy_frame
      · exact hg
      · rfl
    · simp [hb]

lemma level2_referredBy_frame (uid refBy : Nat) (amount : ℚ) (s : St) (v : Nat) :
    Option.map (fun w => w.referredBy)
      ((processLevel2ReferralBonus uid refBy amount s).getUser v) =
      Option.map (fun w => w.referredBy) (s.getUser v) := by
  unfold processLevel2ReferralBonus
  cases hg : s.getUser refBy with
  | none => rfl
  | some u1 =>
    cases hr : u1.referredBy with
    | none => simp [hr]
    | some r2 =>
      cases hg2 : s.getUser r2 with
      | none => simp [hr, hg2]
      | some u2 =>
        by_cases hb : (0 : ℚ) < ((jsRound (amount * (2/100)) : ℤ) : ℚ)
        · simp only [hr, hg2, hb, if_pos]
          rw [getUser_addNotif, getUser_addTxn]
          apply saveUser_referredBy_frame
          · exact hg2
          · rfl
        · simp [hr, hg2, hb]

lemma level3_referredBy_frame (uid refBy : Nat) (amount : ℚ) (s : St) (v : Nat) :
    Option.map (fun w => w.referredBy)
      ((processLevel3ReferralBonus uid refBy amount s).getUser v) =
      Option.map (fun w => w.referredBy) (s.getUser v) := by
  unfold processLevel3ReferralBonus
  cases hg : s.getUser refBy with
  | none => rfl
  | some u1 =>
    cases hr : u1.referredBy with
    | none => simp [hr]
    | some r2 =>
      cases hg2 : s.getUser r2 with
      | none => simp [hr, hg2]
      | some u2 =>
        cases hr2 : u2.referredBy with
        | none => simp [hr, hg2, hr2]
        | some r3 =>
          cases hg3 : s.getUser r3 with
          | none => simp [hr, hg2, hr2, hg3]
          | some u3 =>
            by_cases hb : (0 : ℚ) < ((jsRound (amount * (1/100)) : ℤ) : ℚ)
            · simp only [hr, hg2, hr2, hg3, hb, if_pos]
              rw [getUser_addNotif, getUser_addTxn]
              apply saveUser_referredBy_frame
              · exact hg3
              · rfl
            · have hbz : ¬ 0 < jsRound (amount * 100⁻¹) := by
                rw [← one_div]
                intro hc
                exact hb (by exact_mod_cast hc)
              simp [hr, hg2, hr2, hg3, hbz]

lemma getUser_of_referredBy_frame {s' s : St} {v : Nat}
    (h : Option.map (fun w => w.referredBy) (s'.getUser v) =
      Option.map (fun w => w.referredBy) (s.getUser v))
    {u : UserR} (hu : s.getUser v = some u) :
    ∃ w, s'.getUser v = some w ∧ w.referredBy = u.referredBy := by
  rw [hu] at h
  cases hs : s'.getUser v with
  | none => rw [hs] at h; exact absurd h (by simp)
  | some w =>
    rw [hs] at h
    exact ⟨w, rfl, by simpa using h⟩

/-- C7: with three present, pairwise-distinct ancestors and no prior bonus
for this user, `processDepositReferralBonus` credits the level-1 ancestor
`round(0.19·amount)`, the level-2 ancestor `round(0.02·amount)` and the
level-3 ancestor `round(0.01·amount)` (all positive by hypothesis), and
appends exactly the three corresponding `Referral_Bonus` transactions, one
per level; when the chain stops after level 1 (or after level 2), only the
present levels pay and the missing ones are skipped without error. -/
theorem c7_multilevel_amounts :
    (∀ (s : St) (uid r1 r2 r3 : Nat) (u u1 u2 u3 : UserR) (amount : ℚ),
      s.getUser uid = some u → u.referredBy = some r1 →
      s.getUser r1 = some u1 → u1.referredBy = some r2 →
      s.getUser r2 = some u2 → u2.referredBy = some r3 →
      s.getUser r3 = some u3 →
      r1 ≠ r2 → r1 ≠ r3 → r2 ≠ r3 →
      alreadyPaidReferral s r1 uid = false →
      0 < jsRound (amount * (19/100)) →
      0 < jsRound (amount * (2/100)) →
      0 < jsRound (amount * (1/100)) →
      (processDepositReferralBonus uid amount s).getUser r1 =
        some { u1 with
          balance := u1.balance + ((jsRound (amount * (19/100)) : ℤ) : ℚ),
          referralEarnings :=
            u1.referralEarnings + ((jsRound (amount * (19/100)) : ℤ) : ℚ) } ∧
      (processDepositReferralBonus uid amount s).getUser r2 =
        some { u2 with
          balance := u2.balance + ((jsRound (amount * (2/100)) : ℤ) : ℚ),
          referralEarnings :=
            u2.referralEarnings + ((jsRound (amount * (2/100)) : ℤ) : ℚ) } ∧
      (processDepositReferralBonus uid amount s).getUser r3 =
        some { u3 with
          balance := u3.balance + ((jsRound (amount * (1/100)) : ℤ) : ℚ),
          referralEarnings :=
            u3.referralEarnings + ((jsRound (amount * (1/100)) : ℤ) : ℚ) } ∧
      (processDepositReferralBonus uid amount s).txns =
        s.txns ++
          [{ userId := r1, ttype := TxnType.ReferralBonus,
             amount := ((jsRound (amount * (19/100)) : ℤ) : ℚ),
             description := "Level 1 referral bonus for first deposit",
             referralUserId := some uid },
           { userId := r2, ttype := TxnType.ReferralBonus,
             amount := ((jsRound (amount * (2/100)) : ℤ) : ℚ),
             description := "Level 2 referral bonus for first deposit",
             referralUserId := some uid },
           { userId := r3, ttype := TxnType.ReferralBonus,
             amount := ((jsRound (amount * (1/100)) : ℤ) : ℚ),
             description := "Level 3 referral bonus for first deposit",
             referralUserId := some uid }]) ∧
    (∀ (s : St) (uid r1 : Nat) (u u1 : UserR) (amount : ℚ),
      s.getUser uid = some u → u.referredBy = some r1 →
      s.getUser r1 = some u1 → u1.referredBy = none →
      alreadyPaidReferral s r1 uid = false →
      processDepositReferralBonus uid amount s =
        processLevel1ReferralBonus uid r1 amount s) ∧
    (∀ (s : St) (uid r1 r2 : Nat) (u u1 u2 : UserR) (amount : ℚ),
      s.getUser uid = some u → u.referredBy = some r1 →
      s.getUser r1 = some u1 → u1.referredBy = some r2 →
      s.getUser r2 = some u2 → u2.referredBy = none →
      alreadyPaidReferral s r1 uid = false →
      processDepositReferralBonus uid amount s =
        processLevel2ReferralBonus uid r1 amount
          (processLevel1ReferralBonus uid r1 amount s)) := by
  refine ⟨?_, ?_, ?_⟩
  · intro s uid r1 r2 r3 u u1 u2 u3 amount hu hur h1 h12 h2 h23 h3
      hne12 hne13 hne23 hpaid hb1 hb2 hb3
    have hmain : processDepositReferralBonus uid amount s =
        processLevel3ReferralBonus uid r1 amount
          (processLevel2ReferralBonus uid r1 amount
            (processLevel1ReferralBonus uid r1 amount s)) := by
      simp [processDepositReferralBonus, hu, hur, hpaid]
    have e1 := level1_run uid amount h1 hb1
    have s1g1 : (processLevel1ReferralBonus uid r1 amount s).getUser r1 =
        some { u1 with
          balance := u1.balance + ((jsRound (amount * (19/100)) : ℤ) : ℚ),
          referralEarnings :=
            u1.referralEarnings + ((jsRound (amount * (19/100)) : ℤ) : ℚ) } := by
      rw [e1, getUser_addNotif, getUser_addTxn, getUser_saveUser_self]
    have s1g2 : (processLevel1ReferralBonus uid r1 amount s).getUser r2 =
        some u2 := by
      rw [e1, getUser_addNotif, getUser_addTxn,
        getUser_saveUser_other _ _ _ _ (Ne.symm hne12)]
      exact h2
    have s1g3 : (processLevel1ReferralBonus uid r1 amount s).getUser r3 =
        some u3 := by
      rw [e1, getUser_addNotif, getUser_addTxn,
        getUser_saveUser_other _ _ _ _ (Ne.symm hne13)]
      exact h3
    have e2 := level2_run uid amount s1g1 h12 s1g2 hb2
    have s2g1 : (processLevel2ReferralBonus uid r1 amount
        (processLevel1ReferralBonus uid r1 amount s)).getUser r1 =
        some { u1 with
          balance := u1.balance + ((jsRound (amount * (19/100)) : ℤ) : ℚ),
          referralEarnings :=
            u1.referralEarnings + ((jsRound (amount * (19/100)) : ℤ) : ℚ) } := by
      rw [e2, getUser_addNotif, getUser_addTxn,
        getUser_saveUser_other _ _ _ _ hne12]
      exact s1g1
    have s2g2 : (processLevel2ReferralBonus uid r1 amount
        (processLevel1ReferralBonus uid r1 amount s)).getUser r2 =
        some { u2 with
          balance := u2.balance + ((jsRound (amount * (2/100)) : ℤ) : ℚ),
          referralEarnings :=
            u2.referralEarnings + ((jsRound (amount * (2/100)) : ℤ) : ℚ) } := by
      rw [e2, getUser_addNotif, getUser_addTxn, getUser_saveUser_self]
    have s2g3 : (processLevel2ReferralBonus uid r1 amount
        (processLevel1ReferralBonus uid r1 amount s)).getUser r3 =
        some u3 := by
      rw [e2, getUser_addNotif, getUser_addTxn,
        getUser_saveUser_other _ _ _ _ (Ne.symm hne23)]
      exact s1g3
    have e3 := level3_run uid amount s2g1 h12 s2g2 h23 s2g3 hb3
    rw [hmain]
    refine ⟨?_, ?_, ?_, ?_⟩
    · rw [e3, getUser_addNotif, getUser_addTxn,
        getUser_saveUser_other _ _ _ _ hne13]
      exact s2g1
    · rw [e3, getUser_addNotif, getUser_addTxn,
        getUser_saveUser_other _ _ _ _ hne23]
      exact s2g2
    · rw [e3, getUser_addNotif, getUser_addTxn, getUser_saveUser_self]
    · rw [e3, txns_addNotif, txns_addTxn, txns_saveUser, e2, txns_addNotif,
        txns_addTxn, txns_saveUser, e1, txns_addNotif, txns_addTxn,
        txns_saveUser]
      simp [List.append_assoc]
  · intro s uid r1 u u1 amount hu hur h1 hnone hpaid
    have hmain : processDepositReferralBonus uid amount s =
        processLevel3ReferralBonus uid r1 amount
          (processLevel2ReferralBonus uid r1 amount
            (processLevel1ReferralBonus uid r1 amount s)) := by
      simp [processDepositReferralBonus, hu, hur, hpaid]
    rw [hmain]
    obtain ⟨w, hw, hwref⟩ := getUser_of_referredBy_frame
      (level1_referredBy_frame uid r1 amount s r1) h1
    rw [level2_skip_noref uid amount hw (hwref.trans hnone),
      level3_skip_noref2 uid amount hw (hwref.trans hnone)]
  · intro s uid r1 r2 u u1 u2 amount hu hur h1 h12 h2 hnone hpaid
    have hmain : processDepositReferralBonus uid amount s =
        processLevel3ReferralBonus uid r1 amount
          (processLevel2ReferralBonus uid r1 amount
            (processLevel1ReferralBonus uid r1 amount s)) := by
      simp [processDepositReferralBonus, hu, hur, hpaid]
    rw [hmain]
    obtain ⟨w1, hw1, hw1ref⟩ := getUser_of_referredBy_frame
      (level1_referredBy_frame uid r1 amount s r1) h1
    obtain ⟨w2, hw2, hw2ref⟩ := getUser_of_referredBy_frame
      (level1_referredBy_frame uid r1 amount s r2) h2
    obtain ⟨v1, hv1, hv1ref⟩ := getUser_of_referredBy_frame
      (level2_referredBy_frame uid r1 amount
        (processLevel1ReferralBonus uid r1 amount s) r1) hw1
    obtain ⟨v2, hv2, hv2ref⟩ := getUser_of_referredBy_frame
      (level2_referredBy_frame uid r1 amount
        (processLevel1ReferralBonus uid r1 amount s) r2) hw2
    exact level3_skip_noref3 uid amount hv1
      (hv1ref.trans (hw1ref.trans h12)) hv2
      (hv2ref.trans (hw2ref.trans hnone))

set_option maxRecDepth 100000 in
/-- Witness for C7: a deposit of 10,000 on the four-user chain
`4 → 3 → 2 → 1` pays 1,900 / 200 / 100 to users 3, 2, 1, as three separate
transactions. -/
theorem c7_witness :
    jsRound ((10000 : ℚ) * (19/100)) = 1900 ∧
    jsRound ((10000 : ℚ) * (2/100)) = 200 ∧
    jsRound ((10000 : ℚ) * (1/100)) = 100 ∧
    (processDepositReferralBonus 4 10000
        (⟨[(1, ⟨0, 0, none, true⟩), (2, ⟨0, 0, some 1, true⟩),
           (3, ⟨0, 0, some 2, true⟩), (4, ⟨0, 0, some 3, true⟩)],
          [], [], [], []⟩ : St)).getUser 3 = some ⟨1900, 1900, some 2, true⟩ ∧
    (processDepositReferralBonus 4 10000
        (⟨[(1, ⟨0, 0, none, true⟩), (2, ⟨0, 0, some 1, true⟩),
           (3, ⟨0, 0, some 2, true⟩), (4, ⟨0, 0, some 3, true⟩)],
          [], [], [], []⟩ : St)).getUser 2 = some ⟨200, 200, some 1, true⟩ ∧
    (processDepositReferralBonus 4 10000
        (⟨[(1, ⟨0, 0, none, true⟩), (2, ⟨0, 0, some 1, true⟩),
           (3, ⟨0, 0, some 2, true⟩), (4, ⟨0, 0, some 3, true⟩)],
          [], [], [], []⟩ : St)).getUser 1 = some ⟨100, 100, none, true⟩ ∧
    (processDepositReferralBonus 4 10000
        (⟨[(1, ⟨0, 0, none, true⟩), (2, ⟨0, 0, some 1, true⟩),
           (3, ⟨0, 0, some 2, true⟩), (4, ⟨0, 0, some 3, true⟩)],
          [], [], [], []⟩ : St)).txns =
      [⟨3, TxnType.ReferralBonus, 1900,
        "Level 1 referral bonus for first deposit", some 4⟩,
       ⟨2, TxnType.ReferralBonus, 200,
        "Level 2 referral bonus for first deposit", some 4⟩,
       ⟨1, TxnType.ReferralBonus, 100,
        "Level 3 referral bonus for first deposit", some 4⟩] := by
  have h := c7_multilevel_amounts.1
    (⟨[(1, ⟨0, 0, none, true⟩), (2, ⟨0, 0, some 1, true⟩),
       (3, ⟨0, 0, some 2, true⟩), (4, ⟨0, 0, some 3, true⟩)],
      [], [], [], []⟩ : St) 4 3 2 1
    ⟨0, 0, some 3, true⟩ ⟨0, 0, some 2, true⟩ ⟨0, 0, some 1, true⟩
    ⟨0, 0, none, true⟩ 10000
    (by decide) (by decide) (by decide) (by decide) (by decide) (by decide)
    (by decide) (by decide) (by decide) (by decide) (by decide)
    (by with_unfolding_all decide) (by with_unfolding_all decide)
    (by with_unfolding_all decide)
  refine ⟨by with_unfolding_all decide, by with_unfolding_all decide,
    by with_unfolding_all decide, ?_, ?_, ?_, ?_⟩
  · exact h.1.trans (by with_unfolding_all decide)
  · exact h.2.1.trans (by with_unfolding_all decide)
  · exact h.2.2.1.trans (by with_unfolding_all decide)
  · exact h.2.2.2.trans (by with_unfolding_all decide)

/-! ### Claim C2: idempotency of the deposit referral bonus -/

lemma paid_false_filter_nil {s : St} {refBy uid : Nat}
    (h : alreadyPaidReferral s refBy uid = false) :
    (getTransactionsByUser s refBy).filter (matchesBonusFor uid) = [] := by
  rw [List.filter_eq_nil_iff]
  intro t ht
  have := List.any_eq_false.mp h t ht
  simpa using this

lemma paid_true_of_filter {s : St} {refBy uid : Nat}
    (h : ((getTransactionsByUser s refBy).filter (matchesBonusFor uid)).length
      = 1) :
    alreadyPaidReferral s refBy uid = true := by
  unfold alreadyPaidReferral
  rw [List.any_eq_true]
  have hne : (getTransactionsByUser s refBy).filter (matchesBonusFor uid) ≠ [] := by
    intro hc
    rw [hc] at h
    simp at h
  obtain ⟨t, ht⟩ := List.exists_mem_of_ne_nil _ hne
  exact ⟨t, (List.mem_filter.mp ht).1, (List.mem_filter.mp ht).2⟩

lemma pdb_noop {s : St} {uid r1 : Nat} {u : UserR} (amount : ℚ)
    (hu : s.getUser uid = some u) (hur : u.referredBy = some r1)
    (hp : alreadyPaidReferral s r1 uid = true) :
    processDepositReferralBonus uid amount s = s := by
  simp [processDepositReferralBonus, hu, hur, hp]

lemma level1_txns_filter (uid refBy : Nat) (amount : ℚ) (s : St) {u1 : UserR}
    (h1 : s.getUser refBy = some u1) (hb : 0 < jsRound (amount * (19/100))) :
    (processLevel1ReferralBonus uid refBy amount s).txns =
      s.txns ++
        [{ userId := refBy, ttype := TxnType.ReferralBonus,
           amount := ((jsRound (amount * (19/100)) : ℤ) : ℚ),
           description := "Level 1 referral bonus for first deposit",
           referralUserId := some uid }] := by
  rw [level1_run uid amount h1 hb, txns_addNotif, txns_addTxn, txns_saveUser]

lemma level2_txns_userFilter (uid refBy : Nat) (amount : ℚ) (s : St) (v : Nat)
    (halias : ∀ w r2, s.getUser refBy = some w → w.referredBy = some r2 →
      r2 ≠ v) :
    (processLevel2ReferralBonus uid refBy amount s).txns.filter
      (fun t => t.userId = v) = s.txns.filter (fun t => t.userId = v) := by
  unfold processLevel2ReferralBonus
  cases hg : s.getUser refBy with
  | none => rfl
  | some w =>
    cases hr : w.referredBy with
    | none => simp [hr]
    | some r2 =>
      cases hg2 : s.getUser r2 with
      | none => simp [hr, hg2]
      | some w2 =>
        by_cases hb : (0 : ℚ) < ((jsRound (amount * (2/100)) : ℤ) : ℚ)
        · have hne : r2 ≠ v := halias w r2 hg hr
          simp only [hr, hg2, hb, if_pos]
          rw [txns_addNotif, txns_addTxn, txns_saveUser, List.filter_append]
          simp [hne]
        · simp [hr, hg2, hb]

lemma level3_txns_userFilter (uid refBy : Nat) (amount : ℚ) (s : St) (v : Nat)
    (halias : ∀ w r2 w2 r3, s.getUser refBy = some w →
      w.referredBy = some r2 → s.getUser r2 = some w2 →
      w2.referredBy = some r3 → r3 ≠ v) :
    (processLevel3ReferralBonus uid refBy amount s).txns.filter
      (fun t => t.userId = v) = s.txns.filter (fun t => t.userId = v) := by
  unfold processLevel3ReferralBonus
  cases hg : s.getUser refBy with
  | none => rfl
  | some w =>
    cases hr : w.referredBy with
    | none => simp [hr]
    | some r2 =>
      cases hg2 : s.getUser r2 with
      | none => simp [hr, hg2]
      | some w2 =>
        cases hr2 : w2.referredBy with
        | none => simp [hr, hg2, hr2]
        | some r3 =>
          cases hg3 : s.getUser r3 with
          | none => simp [hr, hg2, hr2, hg3]
          | some w3 =>
            by_cases hb : (0 : ℚ) < ((jsRound (amount * (1/100)) : ℤ) : ℚ)
            · have hne : r3 ≠ v := halias w r2 w2 r3 hg hr hg2 hr2
              simp only [hr, hg2, hr2, hg3, hb, if_pos]
              rw [txns_addNotif, txns_addTxn, txns_saveUser, List.filter_append]
              simp [hne]
            · have hbz : ¬ 0 < jsRound (amount * 100⁻¹) := by
                rw [← one_div]
                intro hc
                exact hb (by exact_mod_cast hc)
              simp [hr, hg2, hr2, hg3, hbz]

lemma pdb_referredBy_frame (uid : Nat) (amount : ℚ) (s : St) (v : Nat) :
    Option.map (fun w => w.referredBy)
      ((processDepositReferralBonus uid amount s).getUser v) =
      Option.map (fun w => w.referredBy) (s.getUser v) := by
  unfold processDepositReferralBonus
  cases hu : s.getUser uid with
  | none => rfl
  | some u =>
    cases hr : u.referredBy with
    | none => simp [hr]
    | some refBy =>
      by_cases hp : alreadyPaidReferral s refBy uid
      · simp [hr, hp]
      · simp only [hr, Bool.not_eq_true] at *
        rw [if_neg (by simp [hp])]
        rw [level3_referredBy_frame, level2_referredBy_frame,
          level1_referredBy_frame]

/-- Claim C2, counterexample: the claim asserts that for every user with a
referrer, two calls with the same amount leave exactly one matching
`Referral_Bonus` transaction in the direct referrer's log; but for a
deposit of 2 the level-1 bonus `Math.round(2·0.19) = 0` is skipped, so
after two calls the referrer's log holds zero matching transactions, not
one. -/
theorem c2_counterexample :
    ((getTransactionsByUser
        (processDepositReferralBonus 2 2
          (processDepositReferralBonus 2 2
            (⟨[(1, ⟨0, 0, none, false⟩), (2, ⟨0, 0, some 1, true⟩)],
              [], [], [], []⟩ : St))) 1).filter (matchesBonusFor 2)).length
      = 0 ∧
    ¬ ((getTransactionsByUser
        (processDepositReferralBonus 2 2
          (processDepositReferralBonus 2 2
            (⟨[(1, ⟨0, 0, none, false⟩), (2, ⟨0, 0, some 1, true⟩)],
              [], [], [], []⟩ : St))) 1).filter (matchesBonusFor 2)).length
      = 1 := by
  constructor
  · with_unfolding_all decide
  · with_unfolding_all decide

/-- C2 (amended): provided the level-1 bonus rounds to at least 1 and the
ancestors at levels 2 and 3 (when present) are different users from the
direct referrer, calling `processDepositReferralBonus` twice with the same
user and amount leaves exactly one `Referral_Bonus` transaction with
`referralUserId = user.id` in the direct referrer's log: the second call
detects the existing transaction and changes nothing at any level.  (For
amounts whose level-1 bonus rounds to 0 no such transaction is ever
created.) -/
theorem c2_no_double_pay_amended :
    ∀ (s : St) (uid r1 : Nat) (u u1 : UserR) (amount : ℚ),
      s.getUser uid = some u → u.referredBy = some r1 →
      s.getUser r1 = some u1 →
      alreadyPaidReferral s r1 uid = false →
      0 < jsRound (amount * (19/100)) →
      (∀ r2, u1.referredBy = some r2 → r2 ≠ r1) →
      (∀ r2 u2 r3, u1.referredBy = some r2 → s.getUser r2 = some u2 →
        u2.referredBy = some r3 → r3 ≠ r1) →
      ((getTransactionsByUser (processDepositReferralBonus uid amount s)
          r1).filter (matchesBonusFor uid)).length = 1 ∧
      processDepositReferralBonus uid amount
          (processDepositReferralBonus uid amount s) =
        processDepositReferralBonus uid amount s := by
  intro s uid r1 u u1 amount hu hur h1 hpaid hb1 hal2 hal3
  have hmain : processDepositReferralBonus uid amount s =
      processLevel3ReferralBonus uid r1 amount
        (processLevel2ReferralBonus uid r1 amount
          (processLevel1ReferralBonus uid r1 amount s)) := by
    simp [processDepositReferralBonus, hu, hur, hpaid]
  have frame1 : ∀ v, Option.map (fun w => w.referredBy)
      ((processLevel1ReferralBonus uid r1 amount s).getUser v) =
      Option.map (fun w => w.referredBy) (s.getUser v) :=
    fun v => level1_referredBy_frame uid r1 amount s v
  have frame2 : ∀ v, Option.map (fun w => w.referredBy)
      ((processLevel2ReferralBonus uid r1 amount
        (processLevel1ReferralBonus uid r1 amount s)).getUser v) =
      Option.map (fun w => w.referredBy) (s.getUser v) :=
    fun v => (level2_referredBy_frame uid r1 amount _ v).trans (frame1 v)
  have hal2' : ∀ w r2, (processLevel1ReferralBonus uid r1 amount s).getUser r1
      = some w → w.referredBy = some r2 → r2 ≠ r1 := by
    intro w r2 hw hwr
    obtain ⟨ww, hww, hwweq⟩ :=
      getUser_of_referredBy_frame (frame1 r1).symm hw
    have : ww = u1 := by
      rw [h1] at hww
      exact (Option.some_injective _ hww.symm)
    subst this
    exact hal2 r2 (hwweq.trans hwr)
  have hal3' : ∀ w r2 w2 r3,
      (processLevel2ReferralBonus uid r1 amount
        (processLevel1ReferralBonus uid r1 amount s)).getUser r1 = some w →
      w.referredBy = some r2 →
      (processLevel2ReferralBonus uid r1 amount
        (processLevel1ReferralBonus uid r1 amount s)).getUser r2 = some w2 →
      w2.referredBy = some r3 → r3 ≠ r1 := by
    intro w r2 w2 r3 hw hwr hw2 hw2r
    obtain ⟨ww, hww, hwweq⟩ :=
      getUser_of_referredBy_frame (frame2 r1).symm hw
    have hwwu1 : ww = u1 := by
      rw [h1] at hww
      exact (Option.some_injective _ hww.symm)
    subst hwwu1
    obtain ⟨uu2, huu2, huu2eq⟩ :=
      getUser_of_referredBy_frame (frame2 r2).symm hw2
    exact hal3 r2 uu2 r3 (hwweq.trans hwr) huu2 (huu2eq.trans hw2r)
  have hcount : ((getTransactionsByUser
      (processDepositReferralBonus uid amount s) r1).filter
      (matchesBonusFor uid)).length = 1 := by
    have hnil := paid_false_filter_nil hpaid
    unfold getTransactionsByUser at hnil ⊢
    rw [hmain, level3_txns_userFilter uid r1 amount _ r1 hal3',
      level2_txns_userFilter uid r1 amount _ r1 hal2',
      level1_txns_filter uid r1 amount s h1 hb1]
    simp only [List.filter_append, List.length_append, hnil]
    simp [matchesBonusFor]
  refine ⟨hcount, ?_⟩
  obtain ⟨u', hu', hu'ref⟩ :=
    getUser_of_referredBy_frame (pdb_referredBy_frame uid amount s uid) hu
  exact pdb_noop amount hu' (hu'ref.trans hur) (paid_true_of_filter hcount)

set_option maxRecDepth 100000 in
/-- Witness for C2: the amended theorem applied to a two-user chain and a
deposit of 10,000 — one matching transaction after the first call, and the
second call is a no-op. -/
theorem c2_witness :
    ((⟨[(1, ⟨0, 0, none, false⟩), (2, ⟨0, 0, some 1, true⟩)],
        [], [], [], []⟩ : St).getUser 2 = some ⟨0, 0, some 1, true⟩) ∧
    alreadyPaidReferral
      (⟨[(1, ⟨0, 0, none, false⟩), (2, ⟨0, 0, some 1, true⟩)],
        [], [], [], []⟩ : St) 1 2 = false ∧
    0 < jsRound ((10000 : ℚ) * (19/100)) ∧
    ((getTransactionsByUser
        (processDepositReferralBonus 2 10000
          (⟨[(1, ⟨0, 0, none, false⟩), (2, ⟨0, 0, some 1, true⟩)],
            [], [], [], []⟩ : St)) 1).filter (matchesBonusFor 2)).length = 1 ∧
    processDepositReferralBonus 2 10000
        (processDepositReferralBonus 2 10000
          (⟨[(1, ⟨0, 0, none, false⟩), (2, ⟨0, 0, some 1, true⟩)],
            [], [], [], []⟩ : St)) =
      processDepositReferralBonus 2 10000
        (⟨[(1, ⟨0, 0, none, false⟩), (2, ⟨0, 0, some 1, true⟩)],
          [], [], [], []⟩ : St) := by
  have h := c2_no_double_pay_amended
    (⟨[(1, ⟨0, 0, none, false⟩), (2, ⟨0, 0, some 1, true⟩)],
      [], [], [], []⟩ : St) 2 1 ⟨0, 0, some 1, true⟩ ⟨0, 0, none, false⟩ 10000
    (by decide) (by decide) (by decide) (by decide)
    (by with_unfolding_all decide)
    (by intro r2 hr2; simp at hr2)
    (by intro r2 u2 r3 hr2; simp at hr2)
  exact ⟨by decide, by decide, by with_unfolding_all decide, h.1, h.2⟩

/-! ### Claim C8: failure propagation across levels -/

lemma level1F_false (uid refBy : Nat) (amount : ℚ) (s : St) :
    processLevel1ReferralBonusF false uid refBy amount s =
      (processLevel1ReferralBonus uid refBy amount s, false) := by
  unfold processLevel1ReferralBonusF processLevel1ReferralBonus
  cases hg : s.getUser refBy with
  | none => rfl
  | some u1 =>
    by_cases hb : (0 : ℚ) < ((jsRound (amount * (19/100)) : ℤ) : ℚ)
    · simp [hb]
    · simp [hb]

lemma level2F_false (uid refBy : Nat) (amount : ℚ) (s : St) :
    processLevel2ReferralBonusF false uid refBy amount s =
      (processLevel2ReferralBonus uid refBy amount s, false) := by
  unfold processLevel2ReferralBonusF processLevel2ReferralBonus
  cases hg : s.getUser refBy with
  | none => rfl
  | some u1 =>
    cases hr : u1.referredBy with
    | none => simp [hr]
    | some r2 =>
      cases hg2 : s.getUser r2 with
      | none => simp [hr, hg2]
      | some u2 =>
        by_cases hb : (0 : ℚ) < ((jsRound (amount * (2/100)) : ℤ) : ℚ)
        · simp [hr, hg2, hb]
        · simp [hr, hg2, hb]

lemma level3F_false (uid refBy : Nat) (amount : ℚ) (s : St) :
    processLevel3ReferralBonusF false uid refBy amount s =
      (processLevel3ReferralBonus uid refBy amount s, false) := by
  unfold processLevel3ReferralBonusF processLevel3ReferralBonus
  cases hg : s.getUser refBy with
  | none => rfl
  | some u1 =>
    cases hr : u1.referredBy with
    | none => simp [hr]
    | some r2 =>
      cases hg2 : s.getUser r2 with
      | none => simp [hr, hg2]
      | some u2 =>
        cases hr2 : u2.referredBy with
        | none => simp [hr, hg2, hr2]
        | some r3 =>
          cases hg3 : s.getUser r3 with
          | none => simp [hr, hg2, hr2, hg3]
          | some u3 =>
            simp only [hr, hg2, hr2, hg3]
            split <;> rfl

/-- Claim C8, counterexample: the claim asserts a thrown error at one
level does not prevent the other levels from completing; but on the
four-user chain `4 → 3 → 2 → 1` with a deposit of 10,000, injecting a
`saveUser` throw at level 1 makes the whole call throw with the store
unchanged — the level-2 ancestor (user 2) is never credited its 200,
although the same call without the fault credits it. -/
theorem c8_counterexample :
    (processDepositReferralBonusF true false false 4 10000
        (⟨[(1, ⟨0, 0, none, true⟩), (2, ⟨0, 0, some 1, true⟩),
           (3, ⟨0, 0, some 2, true⟩), (4, ⟨0, 0, some 3, true⟩)],
          [], [], [], []⟩ : St)).2 = true ∧
    (processDepositReferralBonusF true false false 4 10000
        (⟨[(1, ⟨0, 0, none, true⟩), (2, ⟨0, 0, some 1, true⟩),
           (3, ⟨0, 0, some 2, true⟩), (4, ⟨0, 0, some 3, true⟩)],
          [], [], [], []⟩ : St)).1 =
      (⟨[(1, ⟨0, 0, none, true⟩), (2, ⟨0, 0, some 1, true⟩),
         (3, ⟨0, 0, some 2, true⟩), (4, ⟨0, 0, some 3, true⟩)],
        [], [], [], []⟩ : St) ∧
    (processDepositReferralBonusF false false false 4 10000
        (⟨[(1, ⟨0, 0, none, true⟩), (2, ⟨0, 0, some 1, true⟩),
           (3, ⟨0, 0, some 2, true⟩), (4, ⟨0, 0, some 3, true⟩)],
          [], [], [], []⟩ : St)).1.getUser 2 =
      some ⟨200, 200, some 1, true⟩ := by
  refine ⟨?_, ?_, ?_⟩
  · with_unfolding_all decide
  · with_unfolding_all decide
  · with_unfolding_all decide

/-- C8 (amended): the three per-level payouts are sequential `await`s
inside a single re-throwing `try`, so they are not independent — a thrown
error while processing level 1 propagates out of
`processDepositReferralBonus` and the level-2 and level-3 payouts are
never attempted (the store is left as it was at the throw); a fault-free
run coincides with the plain function. -/
theorem c8_failure_propagates_amended :
    (∀ (s : St) (uid r1 : Nat) (u u1 : UserR) (amount : ℚ) (f2 f3 : Bool),
      s.getUser uid = some u → u.referredBy = some r1 →
      s.getUser r1 = some u1 →
      alreadyPaidReferral s r1 uid = false →
      0 < jsRound (amount * (19/100)) →
      processDepositReferralBonusF true f2 f3 uid amount s = (s, true)) ∧
    (∀ (s : St) (uid : Nat) (amount : ℚ),
      processDepositReferralBonusF false false false uid amount s =
        (processDepositReferralBonus uid amount s, false)) := by
  constructor
  · intro s uid r1 u u1 amount f2 f3 hu hur h1 hpaid hb1
    have hb' : (0 : ℚ) < ((jsRound (amount * (19/100)) : ℤ) : ℚ) := by
      exact_mod_cast hb1
    have hlvl1 : processLevel1ReferralBonusF true uid r1 amount s = (s, true) := by
      simp [processLevel1ReferralBonusF, h1, hb']
    simp [processDepositReferralBonusF, hu, hur, hpaid, hlvl1]
  · intro s uid amount
    unfold processDepositReferralBonusF processDepositReferralBonus
    cases hu : s.getUser uid with
    | none => rfl
    | some u =>
      cases hr : u.referredBy with
      | none => simp [hr]
      | some refBy =>
        by_cases hp : alreadyPaidReferral s refBy uid
        · simp [hr, hp]
        · simp [hr, hp, level1F_false, level2F_false, level3F_false]

/-- Witness for C8: the amended theorem applied to the four-user chain
with a deposit of 10,000 and a level-1 fault. -/
theorem c8_witness :
    ((⟨[(1, ⟨0, 0, none, true⟩), (2, ⟨0, 0, some 1, true⟩),
        (3, ⟨0, 0, some 2, true⟩), (4, ⟨0, 0, some 3, true⟩)],
       [], [], [], []⟩ : St).getUser 4 = some ⟨0, 0, some 3, true⟩) ∧
    alreadyPaidReferral
      (⟨[(1, ⟨0, 0, none, true⟩), (2, ⟨0, 0, some 1, true⟩),
         (3, ⟨0, 0, some 2, true⟩), (4, ⟨0, 0, some 3, true⟩)],
        [], [], [], []⟩ : St) 3 4 = false ∧
    processDepositReferralBonusF true false false 4 10000
      (⟨[(1, ⟨0, 0, none, true⟩), (2, ⟨0, 0, some 1, true⟩),
         (3, ⟨0, 0, some 2, true⟩), (4, ⟨0, 0, some 3, true⟩)],
        [], [], [], []⟩ : St) =
      ((⟨[(1, ⟨0, 0, none, true⟩), (2, ⟨0, 0, some 1, true⟩),
          (3, ⟨0, 0, some 2, true⟩), (4, ⟨0, 0, some 3, true⟩)],
         [], [], [], []⟩ : St), true) :=
  ⟨by decide, by decide,
    c8_failure_propagates_amended.1
      (⟨[(1, ⟨0, 0, none, true⟩), (2, ⟨0, 0, some 1, true⟩),
         (3, ⟨0, 0, some 2, true⟩), (4, ⟨0, 0, some 3, true⟩)],
        [], [], [], []⟩ : St) 4 3 ⟨0, 0, some 3, true⟩ ⟨0, 0, some 2, true⟩
      10000 false false (by decide) (by decide) (by decide) (by decide)
      (by with_unfolding_all decide)⟩

/-! ### Milestone status characterization -/

lemma msLoop_rows (valid : Nat) (cl : List Nat) :
    ∀ (L : List MilestoneCfg) (acc : MSAcc),
      (L.foldl (msStep valid cl) acc).rows =
        acc.rows ++ msRows valid cl acc.allPrev L := by
  intro L
  induction L with
  | nil =>
    intro acc
    simp [msRows]
  | cons m rest ih =>
    intro acc
    rw [List.foldl_cons, ih]
    simp [msStep, msRows]

lemma milestones_eq (s : St) (uid : Nat) :
    (getReferralMilestoneStatus s uid).milestones =
      msRows (getValidReferralCount s uid) (claimedTargetsOf s uid) true
        milestoneConfig := by
  show (milestoneConfig.foldl
      (msStep (getValidReferralCount s uid) (claimedTargetsOf s uid))
      ⟨[], none, true⟩).rows = _
  rw [msLoop_rows]
  rfl

lemma contains_claimedTargets (s : St) (uid t : Nat) :
    (claimedTargetsOf s uid).contains t = true ↔
      ∃ r ∈ s.rewards, r.userId = uid ∧ r.milestoneTarget = t ∧
        r.status = RStatus.claimed := by
  unfold claimedTargetsOf
  constructor
  · intro h
    have hmem : t ∈ (s.rewards.filter
        (fun r => decide (r.userId = uid ∧ r.status = RStatus.claimed))).map
          (·.milestoneTarget) := by
      simpa using h
    obtain ⟨r, hr, hrt⟩ := List.mem_map.mp hmem
    have := List.mem_filter.mp hr
    refine ⟨r, this.1, ?_, hrt, ?_⟩
    · exact (of_decide_eq_true this.2).1
    · exact (of_decide_eq_true this.2).2
  · rintro ⟨r, hr, h1, h2, h3⟩
    have hmem : t ∈ (s.rewards.filter
        (fun r => decide (r.userId = uid ∧ r.status = RStatus.claimed))).map
          (·.milestoneTarget) := by
      exact List.mem_map.mpr ⟨r, List.mem_filter.mpr ⟨hr, by simp [h1, h3]⟩, h2⟩
    simpa using hmem

lemma find?_cfg_of_mem {L : List MilestoneCfg} {m : MilestoneCfg}
    (hpw : L.Pairwise (fun a c => a.target < c.target)) (hmem : m ∈ L) :
    L.find? (fun x => x.target = m.target) = some m := by
  induction L with
  | nil => simp at hmem
  | cons a rest ih =>
    rcases List.mem_cons.mp hmem with rfl | hmem'
    · exact List.find?_cons_of_pos _ (by simp)
    · have hltm : a.target < m.target :=
        (List.pairwise_cons.mp hpw).1 m hmem'
      rw [List.find?_cons_of_neg _ (by simp; omega)]
      exact ih (List.pairwise_cons.mp hpw).2 hmem'

lemma msRows_find_status (valid : Nat) (cl : List Nat) :
    ∀ (L : List MilestoneCfg) (b : Bool) (m : MilestoneCfg), m ∈ L →
      L.Pairwise (fun a c => a.target < c.target) →
      (msRows valid cl b L).find? (fun row => row.target = m.target) =
        some ⟨m.mid, m.target, m.reward,
          if cl.contains m.target then MStatus.claimed
          else if m.target ≤ valid ∧ (b = true ∧
              ∀ m' ∈ L, m'.target < m.target → cl.contains m'.target = true)
            then MStatus.claimable
          else MStatus.locked⟩ := by
  intro L
  induction L with
  | nil =>
    intro b m hm
    simp at hm
  | cons a rest ih =>
    intro b m hm hpw
    have hpw' := List.pairwise_cons.mp hpw
    rcases List.mem_cons.mp hm with rfl | hmem
    · simp only [msRows]
      rw [List.find?_cons_of_pos _ (by simp)]
      have hvac : ∀ m' ∈ m :: rest, m'.target < m.target →
          cl.contains m'.target = true := by
        intro m' hm' hlt
        rcases List.mem_cons.mp hm' with rfl | hm''
        · omega
        · exact absurd hlt (by have := hpw'.1 m' hm''; omega)
      simp only [Option.some.injEq, MilestoneStat.mk.injEq, true_and]
      by_cases hcl : cl.contains m.target = true
      · rw [if_pos hcl, if_pos hcl]
      · rw [if_neg hcl, if_neg hcl]
        refine if_congr ?_ rfl rfl
        constructor
        · rintro ⟨h1, h2⟩
          exact ⟨h1, h2, hvac⟩
        · rintro ⟨h1, h2, _⟩
          exact ⟨h1, h2⟩
    · have hlt : a.target < m.target := hpw'.1 m hmem
      simp only [msRows]
      rw [List.find?_cons_of_neg _ (by simp; omega)]
      rw [ih (b && cl.contains a.target) m hmem hpw'.2]
      simp only [Option.some.injEq, MilestoneStat.mk.injEq, true_and]
      by_cases hcl : cl.contains m.target = true
      · rw [if_pos hcl, if_pos hcl]
      · rw [if_neg hcl, if_neg hcl]
        refine if_congr ?_ rfl rfl
        constructor
        · rintro ⟨h1, h2, h3⟩
          rw [Bool.and_eq_true] at h2
          refine ⟨h1, h2.1, ?_⟩
          intro m' hm' hltm'
          rcases List.mem_cons.mp hm' with rfl | hm''
          · exact h2.2
          · exact h3 m' hm'' hltm'
        · rintro ⟨h1, h2, h3⟩
          refine ⟨h1, ?_, ?_⟩
          · rw [Bool.and_eq_true]
            exact ⟨h2, h3 a (List.mem_cons_self a rest) hlt⟩
          · intro m' hm'' hltm'
            exact h3 m' (List.mem_cons_of_mem a hm'') hltm'

lemma cfg_sorted :
    milestoneConfig.Pairwise (fun a c => a.target < c.target) := by
  decide

set_option maxRecDepth 1000000 in
/-- C3: for every user and every milestone tier, the row reported by
`getReferralMilestoneStatus` for that tier is `claimed` exactly when a
claimed reward record for that target exists (`claimedTargetsOf` membership
is equivalent to the existence of such a record); otherwise `claimable`
exactly when the valid referral count reaches the target AND every
strictly lower tier is already claimed; otherwise `locked`.  In
particular, a user with 40 valid referrals and an unclaimed target-5 tier
sees the target-15 tier (`VIP2`) as locked. -/
theorem c3_milestone_status :
    (∀ (s : St) (uid : Nat) (m : MilestoneCfg), m ∈ milestoneConfig →
      (getReferralMilestoneStatus s uid).milestones.find?
          (fun row => row.target = m.target) =
        some ⟨m.mid, m.target, m.reward,
          if (claimedTargetsOf s uid).contains m.target = true then
            MStatus.claimed
          else if m.target ≤ getValidReferralCount s uid ∧
              (∀ m' ∈ milestoneConfig, m'.target < m.target →
                (claimedTargetsOf s uid).contains m'.target = true)
            then MStatus.claimable
          else MStatus.locked⟩) ∧
    (∀ (s : St) (uid t : Nat),
      (claimedTargetsOf s uid).contains t = true ↔
        ∃ r ∈ s.rewards, r.userId = uid ∧ r.milestoneTarget = t ∧
          r.status = RStatus.claimed) ∧
    ((getReferralMilestoneStatus
        (⟨(0, ⟨0, 0, none, false⟩) ::
            (List.range 40).map (fun i => (i + 1, ⟨0, 0, some 0, true⟩)),
          [],
          (List.range 40).map (fun i =>
            ⟨i + 1, i + 1, "p", 0, 0, 0, 0, 0, none, PStatus.Active,
              PlanType.Basic⟩),
          [], []⟩ : St) 0).validReferrals = 40 ∧
     (getReferralMilestoneStatus
        (⟨(0, ⟨0, 0, none, false⟩) ::
            (List.range 40).map (fun i => (i + 1, ⟨0, 0, some 0, true⟩)),
          [],
          (List.range 40).map (fun i =>
            ⟨i + 1, i + 1, "p", 0, 0, 0, 0, 0, none, PStatus.Active,
              PlanType.Basic⟩),
          [], []⟩ : St) 0).milestones.find? (fun row => row.target = 15) =
       some ⟨"VIP2", 15, 5000, MStatus.locked⟩) := by
  have hgen : ∀ (s : St) (uid : Nat) (m : MilestoneCfg), m ∈ milestoneConfig →
      (getReferralMilestoneStatus s uid).milestones.find?
          (fun row => row.target = m.target) =
        some ⟨m.mid, m.target, m.reward,
          if (claimedTargetsOf s uid).contains m.target = true then
            MStatus.claimed
          else if m.target ≤ getValidReferralCount s uid ∧
              (∀ m' ∈ milestoneConfig, m'.target < m.target →
                (claimedTargetsOf s uid).contains m'.target = true)
            then MStatus.claimable
          else MStatus.locked⟩ := by
    intro s uid m hm
    rw [milestones_eq,
      msRows_find_status _ _ milestoneConfig true m hm cfg_sorted]
    simp
  refine ⟨hgen, contains_claimedTargets, ?_, ?_⟩
  · with_unfolding_all decide
  · exact (hgen _ 0 ⟨"VIP2", 15, 5000⟩ (by decide)).trans (by
      apply congrArg
      rfl)

set_option maxRecDepth 1000000 in
/-- Witness for C3: the status theorem applied to the 40-referral state at
tier `VIP2` — which evaluates to locked because `VIP1` is unclaimed. -/
theorem c3_witness :
    ((⟨"VIP2", 15, 5000⟩ : MilestoneCfg) ∈ milestoneConfig) ∧
    (getReferralMilestoneStatus
        (⟨(0, ⟨0, 0, none, false⟩) ::
            (List.range 40).map (fun i => (i + 1, ⟨0, 0, some 0, true⟩)),
          [],
          (List.range 40).map (fun i =>
            ⟨i + 1, i + 1, "p", 0, 0, 0, 0, 0, none, PStatus.Active,
              PlanType.Basic⟩),
          [], []⟩ : St) 0).milestones.find? (fun row => row.target = 15) =
      some ⟨"VIP2", 15, 5000, MStatus.locked⟩ :=
  ⟨by decide,
    (c3_milestone_status.1
      (⟨(0, ⟨0, 0, none, false⟩) ::
          (List.range 40).map (fun i => (i + 1, ⟨0, 0, some 0, true⟩)),
        [],
        (List.range 40).map (fun i =>
          ⟨i + 1, i + 1, "p", 0, 0, 0, 0, 0, none, PStatus.Active,
            PlanType.Basic⟩),
        [], []⟩ : St) 0 ⟨"VIP2", 15, 5000⟩ (by decide)).trans (by
      apply congrArg
      rfl)⟩

/-! ### Claim C4: double claim and out-of-order claim -/

lemma claim_not_claimable_of_claimed {s : St} {uid : Nat} {m : MilestoneCfg}
    (hm : m ∈ milestoneConfig)
    (hrec : ∃ r ∈ s.rewards, r.userId = uid ∧ r.milestoneTarget = m.target ∧
      r.status = RStatus.claimed) :
    claimReferralMilestone uid m.target s =
      (⟨false, "Milestone is not claimable yet"⟩, s) := by
  have hcl : (claimedTargetsOf s uid).contains m.target = true :=
    (contains_claimedTargets s uid m.target).mpr hrec
  have hrow : (getReferralMilestoneStatus s uid).milestones.find?
      (fun row => row.target = m.target) =
      some ⟨m.mid, m.target, m.reward, MStatus.claimed⟩ := by
    rw [milestones_eq,
      msRows_find_status _ _ milestoneConfig true m hm cfg_sorted]
    simp [hcl]
    intro hmem
    exact absurd (by simpa using hcl) hmem
  unfold claimReferralMilestone
  rw [find?_cfg_of_mem cfg_sorted hm]
  simp [hrow]

lemma claim_not_claimable_of_unclaimed_lower {s : St} {uid : Nat}
    {m m' : MilestoneCfg} (hm : m ∈ milestoneConfig)
    (hm' : m' ∈ milestoneConfig) (hlt : m'.target < m.target)
    (hno' : ¬ ∃ r ∈ s.rewards, r.userId = uid ∧ r.milestoneTarget = m'.target ∧
      r.status = RStatus.claimed)
    (hno : ¬ ∃ r ∈ s.rewards, r.userId = uid ∧ r.milestoneTarget = m.target ∧
      r.status = RStatus.claimed) :
    claimReferralMilestone uid m.target s =
      (⟨false, "Milestone is not claimable yet"⟩, s) := by
  have hcl : ¬ (claimedTargetsOf s uid).contains m.target = true :=
    fun hc => hno ((contains_claimedTargets s uid m.target).mp hc)
  have hcl' : ¬ (claimedTargetsOf s uid).contains m'.target = true :=
    fun hc => hno' ((contains_claimedTargets s uid m'.target).mp hc)
  have hrow : (getReferralMilestoneStatus s uid).milestones.find?
      (fun row => row.target = m.target) =
      some ⟨m.mid, m.target, m.reward, MStatus.locked⟩ := by
    rw [milestones_eq,
      msRows_find_status _ _ milestoneConfig true m hm cfg_sorted]
    have hcond : ¬ (m.target ≤ getValidReferralCount s uid ∧ (true = true ∧
        ∀ m'' ∈ milestoneConfig, m''.target < m.target →
          (claimedTargetsOf s uid).contains m''.target = true)) := by
      rintro ⟨-, -, hall⟩
      exact hcl' (hall m' hm' hlt)
    rw [if_neg hcl, if_neg hcond]
  unfold claimReferralMilestone
  rw [find?_cfg_of_mem cfg_sorted hm]
  simp [hrow]

lemma claim_success_effects {s : St} {uid target : Nat}
    (h : (claimReferralMilestone uid target s).1.success = true) :
    ∃ m u, milestoneConfig.find? (fun x => x.target = target) = some m ∧
      s.getUser uid = some u ∧
      s.rewards.countP (fun r => decide (r.userId = uid ∧
        r.milestoneTarget = target ∧ r.status = RStatus.claimed)) = 0 ∧
      (claimReferralMilestone uid target s).2 =
        (((s.saveUser uid { u with balance := u.balance + m.reward }).addReward
          ⟨uid, target, m.reward, RStatus.claimed⟩).addTxn
          { userId := uid, ttype := TxnType.ReferralBonus, amount := m.reward,
            description := "Referral milestone reward",
            referralUserId := none }) := by
  unfold claimReferralMilestone at h ⊢
  cases hcfg : milestoneConfig.find? (fun x => x.target = target) with
  | none =>
    simp only [hcfg] at h
    simp at h
  | some m =>
    simp only [hcfg] at h ⊢
    cases hrow : (getReferralMilestoneStatus s uid).milestones.find?
        (fun row => row.target = target) with
    | none =>
      simp only [hrow] at h
      simp at h
    | some cur =>
      simp only [hrow] at h ⊢
      by_cases h1 : cur.status ≠ MStatus.claimable
      · rw [if_pos h1] at h
        simp at h
      · rw [if_neg h1] at h ⊢
        by_cases h2 : (getReferralMilestoneStatus s uid).validReferrals < target
        · rw [if_pos h2] at h
          simp at h
        · rw [if_neg h2] at h ⊢
          by_cases h3 : (getReferralMilestoneStatus s uid).milestones.any
              (fun row => decide (row.target < target ∧
                row.status ≠ MStatus.claimed)) = true
          · rw [if_pos h3] at h
            simp at h
          · rw [if_neg h3] at h ⊢
            by_cases h4 : s.rewards.any (fun r => decide (r.userId = uid ∧
                r.milestoneTarget = target ∧ r.status = RStatus.claimed)) = true
            · rw [if_pos h4] at h
              simp at h
            · rw [if_neg h4] at h ⊢
              cases hu : s.getUser uid with
              | none =>
                simp only [hu] at h
                simp at h
              | some u =>
                simp only [hu] at h ⊢
                refine ⟨m, u, rfl, rfl, ?_, rfl⟩
                rw [List.countP_eq_zero]
                intro r hr
                have := List.any_eq_false.mp
                  (Bool.eq_false_iff.mpr fun hc => h4 hc) r hr
                simpa using this

/-- Claim C4, counterexample: the claim asserts the second claim of an
already-claimed milestone fails with the "already claimed" error and that
an out-of-order claim fails with a distinct message; but in sequential
execution the second claim of target 5 fails with "Milestone is not
claimable yet" (the status check fires before the dedicated
"Milestone already claimed" branch, which is unreachable), and an
out-of-order claim of target 15 with 40 valid referrals and target 5
unclaimed fails with the very same message — the messages are not
distinct. -/
theorem c4_counterexample :
    (claimReferralMilestone 0 5
        (⟨(0, ⟨0, 0, none, false⟩) ::
            (List.range 5).map (fun i => (i + 1, ⟨0, 0, some 0, true⟩)),
          [],
          (List.range 5).map (fun i =>
            ⟨i + 1, i + 1, "p", 0, 0, 0, 0, 0, none, PStatus.Active,
              PlanType.Basic⟩),
          [], []⟩ : St)).1 = ⟨true, "Successfully claimed reward"⟩ ∧
    (claimReferralMilestone 0 5
        (claimReferralMilestone 0 5
          (⟨(0, ⟨0, 0, none, false⟩) ::
              (List.range 5).map (fun i => (i + 1, ⟨0, 0, some 0, true⟩)),
            [],
            (List.range 5).map (fun i =>
              ⟨i + 1, i + 1, "p", 0, 0, 0, 0, 0, none, PStatus.Active,
                PlanType.Basic⟩),
            [], []⟩ : St)).2).1 =
      ⟨false, "Milestone is not claimable yet"⟩ ∧
    (claimReferralMilestone 0 5
        (claimReferralMilestone 0 5
          (⟨(0, ⟨0, 0, none, false⟩) ::
              (List.range 5).map (fun i => (i + 1, ⟨0, 0, some 0, true⟩)),
            [],
            (List.range 5).map (fun i =>
              ⟨i + 1, i + 1, "p", 0, 0, 0, 0, 0, none, PStatus.Active,
                PlanType.Basic⟩),
            [], []⟩ : St)).2).2 =
      (claimReferralMilestone 0 5
        (⟨(0, ⟨0, 0, none, false⟩) ::
            (List.range 5).map (fun i => (i + 1, ⟨0, 0, some 0, true⟩)),
          [],
          (List.range 5).map (fun i =>
            ⟨i + 1, i + 1, "p", 0, 0, 0, 0, 0, none, PStatus.Active,
              PlanType.Basic⟩),
          [], []⟩ : St)).2 ∧
    (claimReferralMilestone 0 15
        (⟨(0, ⟨0, 0, none, false⟩) ::
            (List.range 40).map (fun i => (i + 1, ⟨0, 0, some 0, true⟩)),
          [],
          (List.range 40).map (fun i =>
            ⟨i + 1, i + 1, "p", 0, 0, 0, 0, 0, none, PStatus.Active,
              PlanType.Basic⟩),
          [], []⟩ : St)).1 =
      ⟨false, "Milestone is not claimable yet"⟩ ∧
    ("Milestone is not claimable yet" ≠ "Milestone already claimed") := by
  refine ⟨rfl, rfl, rfl, rfl, by decide⟩

/-- C4 (amended): after a successful `claimReferralMilestone`, a second
call with the same arguments fails with the message "Milestone is not
claimable yet" — not the dedicated "already claimed" message, which is
unreachable in sequential execution — while the balance is credited
exactly once (the second call performs no mutation at all: the state it
returns is exactly the post-success state, which holds exactly one claimed
record for the target); an out-of-order claim (a strictly lower tier still
unclaimed) fails with that same message, so the two failures are not
distinguished by their messages. -/
theorem c4_double_claim_amended :
    (∀ (s : St) (uid target : Nat),
      (claimReferralMilestone uid target s).1.success = true →
      claimReferralMilestone uid target
          (claimReferralMilestone uid target s).2 =
        (⟨false, "Milestone is not claimable yet"⟩,
          (claimReferralMilestone uid target s).2) ∧
      ∃ m u, milestoneConfig.find? (fun x => x.target = target) = some m ∧
        s.getUser uid = some u ∧
        (claimReferralMilestone uid target s).2.getUser uid =
          some { u with balance := u.balance + m.reward } ∧
        (claimReferralMilestone uid target s).2.rewards.countP
          (fun r => decide (r.userId = uid ∧ r.milestoneTarget = target ∧
            r.status = RStatus.claimed)) = 1) ∧
    (∀ (s : St) (uid : Nat) (m m' : MilestoneCfg), m ∈ milestoneConfig →
      m' ∈ milestoneConfig → m'.target < m.target →
      (¬ ∃ r ∈ s.rewards, r.userId = uid ∧ r.milestoneTarget = m'.target ∧
        r.status = RStatus.claimed) →
      (¬ ∃ r ∈ s.rewards, r.userId = uid ∧ r.milestoneTarget = m.target ∧
        r.status = RStatus.claimed) →
      claimReferralMilestone uid m.target s =
        (⟨false, "Milestone is not claimable yet"⟩, s)) := by
  constructor
  · intro s uid target h
    obtain ⟨m, u, hcfg, hu, hcount0, heff⟩ := claim_success_effects h
    have hmem : m ∈ milestoneConfig := List.mem_of_find?_eq_some hcfg
    have htarget : m.target = target := by
      have := List.find?_some hcfg
      simpa using this
    subst htarget
    have hrew : ((claimReferralMilestone uid m.target s).2).rewards =
        s.rewards ++ [⟨uid, m.target, m.reward, RStatus.claimed⟩] := by
      rw [heff, rewards_addTxn, rewards_addReward, rewards_saveUser]
    constructor
    · apply claim_not_claimable_of_claimed hmem
      refine ⟨⟨uid, m.target, m.reward, RStatus.claimed⟩, ?_, rfl, rfl, rfl⟩
      rw [hrew]
      exact List.mem_append_right _ (List.mem_singleton.mpr rfl)
    · refine ⟨m, u, hcfg, hu, ?_, ?_⟩
      · rw [heff, getUser_addTxn, getUser_addReward, getUser_saveUser_self]
      · rw [hrew, List.countP_append, hcount0]
        simp
  · intro s uid m m' hm hm' hlt hno' hno
    exact claim_not_claimable_of_unclaimed_lower hm hm' hlt hno' hno

/-- Witness for C4: the amended theorem applied to the five-referral state
(double claim of target 5) and the forty-referral state (out-of-order
claim of target 15 with target 5 unclaimed). -/
theorem c4_witness :
    (claimReferralMilestone 0 5
        (⟨(0, ⟨0, 0, none, false⟩) ::
            (List.range 5).map (fun i => (i + 1, ⟨0, 0, some 0, true⟩)),
          [],
          (List.range 5).map (fun i =>
            ⟨i + 1, i + 1, "p", 0, 0, 0, 0, 0, none, PStatus.Active,
              PlanType.Basic⟩),
          [], []⟩ : St)).1.success = true ∧
    claimReferralMilestone 0 5
        (claimReferralMilestone 0 5
          (⟨(0, ⟨0, 0, none, false⟩) ::
              (List.range 5).map (fun i => (i + 1, ⟨0, 0, some 0, true⟩)),
            [],
            (List.range 5).map (fun i =>
              ⟨i + 1, i + 1, "p", 0, 0, 0, 0, 0, none, PStatus.Active,
                PlanType.Basic⟩),
            [], []⟩ : St)).2 =
      (⟨false, "Milestone is not claimable yet"⟩,
        (claimReferralMilestone 0 5
          (⟨(0, ⟨0, 0, none, false⟩) ::
              (List.range 5).map (fun i => (i + 1, ⟨0, 0, some 0, true⟩)),
            [],
            (List.range 5).map (fun i =>
              ⟨i + 1, i + 1, "p", 0, 0, 0, 0, 0, none, PStatus.Active,
                PlanType.Basic⟩),
            [], []⟩ : St)).2) ∧
    claimReferralMilestone 0 15
        (⟨(0, ⟨0, 0, none, false⟩) ::
            (List.range 40).map (fun i => (i + 1, ⟨0, 0, some 0, true⟩)),
          [],
          (List.range 40).map (fun i =>
            ⟨i + 1, i + 1, "p", 0, 0, 0, 0, 0, none, PStatus.Active,
              PlanType.Basic⟩),
          [], []⟩ : St) =
      (⟨false, "Milestone is not claimable yet"⟩,
        (⟨(0, ⟨0, 0, none, false⟩) ::
            (List.range 40).map (fun i => (i + 1, ⟨0, 0, some 0, true⟩)),
          [],
          (List.range 40).map (fun i =>
            ⟨i + 1, i + 1, "p", 0, 0, 0, 0, 0, none, PStatus.Active,
              PlanType.Basic⟩),
          [], []⟩ : St)) :=
  ⟨rfl,
    (c4_double_claim_amended.1
      (⟨(0, ⟨0, 0, none, false⟩) ::
          (List.range 5).map (fun i => (i + 1, ⟨0, 0, some 0, true⟩)),
        [],
        (List.range 5).map (fun i =>
          ⟨i + 1, i + 1, "p", 0, 0, 0, 0, 0, none, PStatus.Active,
            PlanType.Basic⟩),
        [], []⟩ : St) 0 5 rfl).1,
    c4_double_claim_amended.2
      (⟨(0, ⟨0, 0, none, false⟩) ::
          (List.range 40).map (fun i => (i + 1, ⟨0, 0, some 0, true⟩)),
        [],
        (List.range 40).map (fun i =>
          ⟨i + 1, i + 1, "p", 0, 0, 0, 0, 0, none, PStatus.Active,
            PlanType.Basic⟩),
        [], []⟩ : St) 0 ⟨"VIP2", 15, 5000⟩ ⟨"VIP1", 5, 1000⟩ (by decide)
      (by decide) (by decide) (by simp) (by simp)⟩

/-! ### Investment payout lemmas -/

lemma one_le_daysSince_iff (now lp : Int) :
    1 ≤ daysSince now lp ↔ dayMs ≤ now - lp := by
  unfold daysSince
  rw [Int.fdiv_eq_ediv _ (by norm_num [dayMs])]
  rw [Int.le_ediv_iff_mul_le (by norm_num [dayMs])]
  constructor
  · intro h
    calc dayMs = 1 * dayMs := (one_mul _).symm
    _ ≤ now - lp := h
  · intro h
    calc (1 : Int) * dayMs = dayMs := one_mul _
    _ ≤ now - lp := h

lemma getD_eq_max {p : Product}
    (hsane : p.lastPayoutDate = none ∨
      ∃ lp, p.lastPayoutDate = some lp ∧ p.startDate ≤ lp) :
    p.lastPayoutDate.getD p.startDate =
      max (p.lastPayoutDate.getD p.startDate) p.startDate := by
  rcases hsane with h | ⟨lp, h, hle⟩
  · simp [h]
  · simp [h]
    omega

lemma getUser_updatePayoutDate (s : St) (pid : Nat) (d : Int) (v : Nat) :
    (updateProductPayoutDate s pid d).getUser v = s.getUser v := rfl

lemma getUser_updateStatus (s : St) (pid : Nat) (st : PStatus) (v : Nat) :
    (updateProductStatus s pid st).getUser v = s.getUser v := rfl

lemma txns_updatePayoutDate (s : St) (pid : Nat) (d : Int) :
    (updateProductPayoutDate s pid d).txns = s.txns := rfl

lemma txns_updateStatus (s : St) (pid : Nat) (st : PStatus) :
    (updateProductStatus s pid st).txns = s.txns := rfl

lemma addToUserBalance_eq {s : St} {uid : Nat} {u : UserR} (amt : ℚ)
    (hu : s.getUser uid = some u) :
    addToUserBalance s uid amt =
      s.saveUser uid { u with balance := u.balance + amt } := by
  simp [addToUserBalance, hu]

lemma filter_pid_update (l : List Product) (pid : Nat) (f : Product → Product)
    (hf : ∀ q, (f q).pid = q.pid) :
    (l.map (fun q => if q.pid = pid then f q else q)).filter
        (fun r => r.pid = pid) =
      (l.filter (fun r => r.pid = pid)).map f := by
  induction l with
  | nil => rfl
  | cons x xs ih =>
    by_cases hx : x.pid = pid
    · simp only [List.map_cons, if_pos hx, List.filter_cons]
      rw [if_pos (by simp [hf, hx]), if_pos (by simp [hx])]
      simp only [List.map_cons]
      rw [ih]
    · simp only [List.map_cons, if_neg hx, List.filter_cons]
      rw [if_neg (by simp [hx]), if_neg (by simp [hx])]
      exact ih

lemma filter_pid_update_other (l : List Product) (pid X : Nat)
    (f : Product → Product) (hf : ∀ q, (f q).pid = q.pid) (hne : pid ≠ X) :
    (l.map (fun q => if q.pid = pid then f q else q)).filter
        (fun r => r.pid = X) = l.filter (fun r => r.pid = X) := by
  induction l with
  | nil => rfl
  | cons x xs ih =>
    by_cases hx : x.pid = pid
    · have hxX : ¬ x.pid = X := fun hc => hne (hx ▸ hc)
      simp only [List.map_cons, if_pos hx, List.filter_cons]
      rw [if_neg (by simp [hf, hx]; exact fun hc => hne hc),
        if_neg (by simp [hxX])]
      exact ih
    · simp only [List.map_cons, if_neg hx, List.filter_cons]
      by_cases hxX : x.pid = X
      · rw [if_pos (by simp [hxX]), if_pos (by simp [hxX])]
        rw [ih]
      · rw [if_neg (by simp [hxX]), if_neg (by simp [hxX])]
        exact ih

lemma filter_swapP (l : List Product) (f g : Product → Bool) :
    (l.filter f).filter g = (l.filter g).filter f := by
  simp [List.filter_filter, Bool.and_comm]

lemma filter_update_payout (l : List Product) (pid : Nat) (d : Int) :
    (l.map (fun q => if q.pid = pid then { q with lastPayoutDate := some d }
        else q)).filter (fun r => r.pid = pid) =
      (l.filter (fun r => r.pid = pid)).map
        (fun q => { q with lastPayoutDate := some d }) :=
  filter_pid_update l pid (fun q => { q with lastPayoutDate := some d })
    (fun _ => rfl)

lemma filter_update_payout_other (l : List Product) (pid X : Nat) (d : Int)
    (hne : pid ≠ X) :
    (l.map (fun q => if q.pid = pid then { q with lastPayoutDate := some d }
        else q)).filter (fun r => r.pid = X) =
      l.filter (fun r => r.pid = X) :=
  filter_pid_update_other l pid X
    (fun q => { q with lastPayoutDate := some d }) (fun _ => rfl) hne

lemma filter_update_status (l : List Product) (pid : Nat) (st : PStatus) :
    (l.map (fun q => if q.pid = pid then { q with status := st }
        else q)).filter (fun r => r.pid = pid) =
      (l.filter (fun r => r.pid = pid)).map (fun q => { q with status := st }) :=
  filter_pid_update l pid (fun q => { q with status := st }) (fun _ => rfl)

lemma filter_update_status_other (l : List Product) (pid X : Nat)
    (st : PStatus) (hne : pid ≠ X) :
    (l.map (fun q => if q.pid = pid then { q with status := st }
        else q)).filter (fun r => r.pid = X) =
      l.filter (fun r => r.pid = X) :=
  filter_pid_update_other l pid X (fun q => { q with status := st })
    (fun _ => rfl) hne

/-- C6: for an Active, not-yet-expired product, `processDailyPayout` (and
the sweep's dispatch to it) credits the owner's balance by `dailyEarning`
and records exactly one transaction only when the plan type is Special and
at least one full day has elapsed since `max(lastPayoutDate, startDate)`
(the code's `lastPayoutDate ?? startDate` equals that maximum whenever
`lastPayoutDate`, if set, is at or after `startDate`, which the sweep
itself maintains), also advancing `lastPayoutDate` to `now`; Basic and
Premium receive no balance credit and no transaction; nothing happens
before a full day has elapsed, and after a payout at `now` no further
payout occurs at any time less than one day later. -/
theorem c6_daily_payout :
    ∀ (s : St) (p : Product) (now : Int) (u0 : UserR),
      s.getUser p.userId = some u0 →
      (p.lastPayoutDate = none ∨
        ∃ lp, p.lastPayoutDate = some lp ∧ p.startDate ≤ lp) →
      (p.lastPayoutDate.getD p.startDate =
        max (p.lastPayoutDate.getD p.startDate) p.startDate) ∧
      (p.planType = PlanType.Special →
        dayMs ≤ now - max (p.lastPayoutDate.getD p.startDate) p.startDate →
        ((processDailyPayout p now s).getUser p.userId =
          some { u0 with balance := u0.balance + p.dailyEarning }) ∧
        ((processDailyPayout p now s).txns = s.txns ++ [dailyTxnOf p]) ∧
        (s.products.filter (fun r => r.pid = p.pid) = [p] →
          (processDailyPayout p now s).products.filter
              (fun r => r.pid = p.pid) =
            [{ p with lastPayoutDate := some now }])) ∧
      (p.planType ≠ PlanType.Special →
        (∀ v, (processDailyPayout p now s).getUser v = s.getUser v) ∧
        (processDailyPayout p now s).txns = s.txns) ∧
      (now - max (p.lastPayoutDate.getD p.startDate) p.startDate < dayMs →
        processDailyPayout p now s = s) ∧
      (∀ (s2 : St) (now2 : Int), now2 - now < dayMs →
        processDailyPayout { p with lastPayoutDate := some now } now2 s2 = s2) ∧
      (p.status = PStatus.Active → p.startDate ≤ now → now < p.endDate →
        payoutStep now s p = processDailyPayout p now s) := by
  intro s p now u0 hu hsane
  have hmax := getD_eq_max hsane
  refine ⟨hmax, ?_, ?_, ?_, ?_, ?_⟩
  · intro hsp hdue
    rw [← hmax] at hdue
    have hcond : 1 ≤ daysSince now (p.lastPayoutDate.getD p.startDate) :=
      (one_le_daysSince_iff _ _).mpr hdue
    have heq : processDailyPayout p now s =
        updateProductPayoutDate
          ((addToUserBalance s p.userId p.dailyEarning).addTxn (dailyTxnOf p))
          p.pid now := by
      unfold processDailyPayout
      rw [if_pos hcond, if_pos hsp]
    refine ⟨?_, ?_, ?_⟩
    · rw [heq, getUser_updatePayoutDate, getUser_addTxn,
        addToUserBalance_eq p.dailyEarning hu, getUser_saveUser_self]
    · rw [heq, txns_updatePayoutDate, txns_addTxn,
        addToUserBalance_eq p.dailyEarning hu, txns_saveUser]
    · intro hfil
      have hprod : ((addToUserBalance s p.userId p.dailyEarning).addTxn
          (dailyTxnOf p)).products = s.products := by
        rw [products_addTxn, addToUserBalance_eq p.dailyEarning hu,
          products_saveUser]
      rw [heq]
      show (((addToUserBalance s p.userId p.dailyEarning).addTxn
          (dailyTxnOf p)).products.map
          (fun q => if q.pid = p.pid then { q with lastPayoutDate := some now }
            else q)).filter (fun r => r.pid = p.pid) = _
      rw [hprod, filter_update_payout, hfil]
      rfl
  · intro hnsp
    unfold processDailyPayout
    by_cases hcond : 1 ≤ daysSince now (p.lastPayoutDate.getD p.startDate)
    · rw [if_pos hcond, if_neg hnsp]
      exact ⟨fun v => rfl, rfl⟩
    · rw [if_neg hcond]
      exact ⟨fun v => rfl, rfl⟩
  · intro hlt
    rw [← hmax] at hlt
    unfold processDailyPayout
    rw [if_neg]
    intro hc
    have := (one_le_daysSince_iff now (p.lastPayoutDate.getD p.startDate)).mp hc
    omega
  · intro s2 now2 hlt
    unfold processDailyPayout
    rw [if_neg]
    intro hc
    have := (one_le_daysSince_iff now2
      (({ p with lastPayoutDate := some now } :
        Product).lastPayoutDate.getD p.startDate)).mp hc
    simp at this
    omega
  · intro hact hstart hend
    unfold payoutStep
    rw [if_neg (by simp [hact]; omega), if_neg (by omega)]

lemma products_updateStatus (s : St) (pid : Nat) (st : PStatus) :
    (updateProductStatus s pid st).products =
      s.products.map (fun q => if q.pid = pid then { q with status := st }
        else q) := rfl

lemma products_updatePayoutDate (s : St) (pid : Nat) (d : Int) :
    (updateProductPayoutDate s pid d).products =
      s.products.map (fun q => if q.pid = pid then
        { q with lastPayoutDate := some d } else q) := rfl

lemma addToUserBalance_getUser_other (s : St) (uid : Nat) (amt : ℚ) (v : Nat)
    (h : v ≠ uid) :
    (addToUserBalance s uid amt).getUser v = s.getUser v := by
  unfold addToUserBalance
  cases hg : s.getUser uid with
  | none => rfl
  | some w => exact getUser_saveUser_other _ _ _ _ h

lemma addToUserBalance_txns (s : St) (uid : Nat) (amt : ℚ) :
    (addToUserBalance s uid amt).txns = s.txns := by
  unfold addToUserBalance
  cases hg : s.getUser uid with
  | none => rfl
  | some w => exact txns_saveUser _ _ _

lemma addToUserBalance_products (s : St) (uid : Nat) (amt : ℚ) :
    (addToUserBalance s uid amt).products = s.products := by
  unfold addToUserBalance
  cases hg : s.getUser uid with
  | none => rfl
  | some w => exact products_saveUser _ _ _

lemma completePlan_frame (q : Product) (s : St) (u X : Nat)
    (hqu : q.userId ≠ u) (hqp : q.pid ≠ X) :
    ((completePlan q s).getUser u = s.getUser u) ∧
    ((completePlan q s).txns.filter (fun t => t.userId = u) =
      s.txns.filter (fun t => t.userId = u)) ∧
    ((completePlan q s).products.filter (fun r => r.pid = X) =
      s.products.filter (fun r => r.pid = X)) := by
  unfold completePlan
  refine ⟨?_, ?_, ?_⟩
  · rw [getUser_updateStatus, getUser_addTxn,
      addToUserBalance_getUser_other _ _ _ _ (fun hc => hqu hc.symm)]
  · rw [txns_updateStatus, txns_addTxn, addToUserBalance_txns,
      List.filter_append]
    have hne : ¬ ((completionTxnOf q).userId = u) := hqu
    simp [hne]
  · rw [products_updateStatus, products_addTxn, addToUserBalance_products,
      filter_update_status_other _ _ _ _ hqp]

lemma processDailyPayout_frame (q : Product) (now : Int) (s : St) (u X : Nat)
    (hqu : q.userId ≠ u) (hqp : q.pid ≠ X) :
    ((processDailyPayout q now s).getUser u = s.getUser u) ∧
    ((processDailyPayout q now s).txns.filter (fun t => t.userId = u) =
      s.txns.filter (fun t => t.userId = u)) ∧
    ((processDailyPayout q now s).products.filter (fun r => r.pid = X) =
      s.products.filter (fun r => r.pid = X)) := by
  unfold processDailyPayout
  by_cases hcond : 1 ≤ daysSince now (q.lastPayoutDate.getD q.startDate)
  · rw [if_pos hcond]
    by_cases hsp : q.planType = PlanType.Special
    · rw [if_pos hsp]
      refine ⟨?_, ?_, ?_⟩
      · rw [getUser_updatePayoutDate, getUser_addTxn,
          addToUserBalance_getUser_other _ _ _ _ (fun hc => hqu hc.symm)]
      · rw [txns_updatePayoutDate, txns_addTxn, addToUserBalance_txns,
          List.filter_append]
        have hne : ¬ ((dailyTxnOf q).userId = u) := hqu
        simp [hne]
      · rw [products_updatePayoutDate, products_addTxn,
          addToUserBalance_products, filter_update_payout_other _ _ _ _ hqp]
    · rw [if_neg hsp]
      refine ⟨rfl, rfl, ?_⟩
      rw [products_updatePayoutDate, filter_update_payout_other _ _ _ _ hqp]
  · rw [if_neg hcond]
    exact ⟨rfl, rfl, rfl⟩

lemma payoutStep_frame (now : Int) (s : St) (q : Product) (u X : Nat)
    (hqu : q.userId ≠ u) (hqp : q.pid ≠ X) :
    ((payoutStep now s q).getUser u = s.getUser u) ∧
    ((payoutStep now s q).txns.filter (fun t => t.userId = u) =
      s.txns.filter (fun t => t.userId = u)) ∧
    ((payoutStep now s q).products.filter (fun r => r.pid = X) =
      s.products.filter (fun r => r.pid = X)) := by
  unfold payoutStep
  by_cases h1 : q.status = PStatus.Completed ∨ now < q.startDate
  · rw [if_pos h1]
    exact ⟨rfl, rfl, rfl⟩
  · rw [if_neg h1]
    by_cases h2 : q.endDate ≤ now
    · rw [if_pos h2]
      exact completePlan_frame q s u X hqu hqp
    · rw [if_neg h2]
      exact processDailyPayout_frame q now s u X hqu hqp

lemma payoutFold_frame (now : Int) (u X : Nat) :
    ∀ (L : List Product) (s : St),
      (∀ q ∈ L, q.userId ≠ u ∧ q.pid ≠ X) →
      ((L.foldl (payoutStep now) s).getUser u = s.getUser u) ∧
      ((L.foldl (payoutStep now) s).txns.filter (fun t => t.userId = u) =
        s.txns.filter (fun t => t.userId = u)) ∧
      ((L.foldl (payoutStep now) s).products.filter (fun r => r.pid = X) =
        s.products.filter (fun r => r.pid = X)) := by
  intro L
  induction L with
  | nil =>
    intro s _
    exact ⟨rfl, rfl, rfl⟩
  | cons q rest ih =>
    intro s h
    have hq := h q (List.mem_cons_self q rest)
    have hstep := payoutStep_frame now s q u X hq.1 hq.2
    have hrest := ih (payoutStep now s q)
      (fun q' hq' => h q' (List.mem_cons_of_mem q hq'))
    rw [List.foldl_cons]
    exact ⟨hrest.1.trans hstep.1, hrest.2.1.trans hstep.2.1,
      hrest.2.2.trans hstep.2.2⟩

lemma payoutFold_complete (now : Int) (p : Product) :
    ∀ (L : List Product) (s : St) (u0 : UserR),
      L.filter (fun q => q.pid = p.pid) = [p] →
      L.filter (fun q => q.userId = p.userId) = [p] →
      p.status = PStatus.Active → p.startDate ≤ now → p.endDate ≤ now →
      s.getUser p.userId = some u0 →
      s.products.filter (fun r => r.pid = p.pid) = [p] →
      ((L.foldl (payoutStep now) s).getUser p.userId =
        some { u0 with balance := u0.balance + finalPayoutOf p }) ∧
      ((L.foldl (payoutStep now) s).txns.filter (fun t => t.userId = p.userId)
        = s.txns.filter (fun t => t.userId = p.userId) ++
            [completionTxnOf p]) ∧
      ((L.foldl (payoutStep now) s).products.filter (fun r => r.pid = p.pid) =
        [{ p with status := PStatus.Completed }]) := by
  intro L
  induction L with
  | nil =>
    intro s u0 hpid
    simp at hpid
  | cons q rest ih =>
    intro s u0 hpid huser hact hstart hend hu hsp
    by_cases hq : q.pid = p.pid
    · rw [List.filter_cons, if_pos (by simp [hq])] at hpid
      injection hpid with h1 hfp
      subst h1
      rw [List.filter_cons, if_pos (by simp)] at huser
      injection huser with h2 hfu
      have hstep : payoutStep now s q = completePlan q s := by
        unfold payoutStep
        rw [if_neg (by simp [hact]; omega), if_pos hend]
      have e1 : completePlan q s =
          updateProductStatus ((s.saveUser q.userId
            { u0 with balance := u0.balance + finalPayoutOf q }).addTxn
            (completionTxnOf q)) q.pid PStatus.Completed := by
        unfold completePlan
        rw [addToUserBalance_eq (finalPayoutOf q) hu]
      have g1 : (completePlan q s).getUser q.userId =
          some { u0 with balance := u0.balance + finalPayoutOf q } := by
        rw [e1, getUser_updateStatus, getUser_addTxn, getUser_saveUser_self]
      have g2 : (completePlan q s).txns.filter (fun t => t.userId = q.userId)
          = s.txns.filter (fun t => t.userId = q.userId) ++
            [completionTxnOf q] := by
        rw [e1, txns_updateStatus, txns_addTxn, txns_saveUser,
          List.filter_append]
        simp [completionTxnOf]
      have g3 : (completePlan q s).products.filter (fun r => r.pid = q.pid) =
          [{ q with status := PStatus.Completed }] := by
        rw [e1, products_updateStatus, products_addTxn, products_saveUser,
          filter_update_status, hsp]
        rfl
      have hothers : ∀ q' ∈ rest, q'.userId ≠ q.userId ∧ q'.pid ≠ q.pid := by
        intro q' hq'
        constructor
        · intro hc
          have := List.filter_eq_nil_iff.mp hfu q' hq'
          simp [hc] at this
        · intro hc
          have := List.filter_eq_nil_iff.mp hfp q' hq'
          simp [hc] at this
      have hrest := payoutFold_frame now q.userId q.pid rest
        (completePlan q s) hothers
      rw [List.foldl_cons, hstep]
      exact ⟨hrest.1.trans g1, hrest.2.1.trans g2, hrest.2.2.trans g3⟩
    · rw [List.filter_cons, if_neg (by simp [hq])] at hpid
      have hqu : q.userId ≠ p.userId := by
        intro hc
        rw [List.filter_cons, if_pos (by simp [hc])] at huser
        injection huser with h1 h2
        exact hq (h1 ▸ rfl)
      rw [List.filter_cons, if_neg (by simp [hqu])] at huser
      have hframe := payoutStep_frame now s q p.userId p.pid hqu hq
      have hu' : (payoutStep now s q).getUser p.userId = some u0 :=
        hframe.1.trans hu
      have hsp' : (payoutStep now s q).products.filter
          (fun r => r.pid = p.pid) = [p] := hframe.2.2.trans hsp
      have hres := ih (payoutStep now s q) u0 hpid huser hact hstart hend
        hu' hsp'
      rw [List.foldl_cons]
      exact ⟨hres.1, hres.2.1.trans (by rw [hframe.2.1]), hres.2.2⟩

/-- C5: for every Active product whose end date has been reached (and
whose start date is not in the future), the expiry sweep
`processDailyPayouts` transitions it to Completed and applies exactly one
final payout — one balance credit to its owner plus one completion
transaction — where the amount is `totalEarning` for Basic and Premium
plans and exactly `price` (principal only) for Special plans.  The product
is identified by a unique product id and is its owner's only product, so
the credit and the transaction can be attributed exactly. -/
theorem c5_expiry_sweep :
    ∀ (s : St) (p : Product) (now : Int) (u0 : UserR),
      p.status = PStatus.Active → p.startDate ≤ now → p.endDate ≤ now →
      s.getUser p.userId = some u0 →
      s.products.filter (fun r => r.pid = p.pid) = [p] →
      s.products.filter (fun r => r.userId = p.userId) = [p] →
      ((processDailyPayouts now s).getUser p.userId =
        some { u0 with balance := u0.balance + finalPayoutOf p }) ∧
      ((processDailyPayouts now s).txns.filter
          (fun t => t.userId = p.userId) =
        s.txns.filter (fun t => t.userId = p.userId) ++
          [completionTxnOf p]) ∧
      ((processDailyPayouts now s).products.filter
          (fun r => r.pid = p.pid) =
        [{ p with status := PStatus.Completed }]) ∧
      (completionTxnOf p).amount = finalPayoutOf p ∧
      ((p.planType = PlanType.Basic ∨ p.planType = PlanType.Premium) →
        finalPayoutOf p = p.totalEarning) ∧
      (p.planType = PlanType.Special → finalPayoutOf p = p.price) := by
  intro s p now u0 hact hstart hend hu hspid hsuser
  have hLpid : (getAllActiveProducts s).filter (fun q => q.pid = p.pid)
      = [p] := by
    unfold getAllActiveProducts
    rw [filter_swapP, hspid, List.filter_cons, if_pos (by simp [hact])]
    rfl
  have hLuser : (getAllActiveProducts s).filter
      (fun q => q.userId = p.userId) = [p] := by
    unfold getAllActiveProducts
    rw [filter_swapP, hsuser, List.filter_cons, if_pos (by simp [hact])]
    rfl
  have hmain := payoutFold_complete now p (getAllActiveProducts s) s u0
    hLpid hLuser hact hstart hend hu hspid
  refine ⟨hmain.1, hmain.2.1, hmain.2.2, rfl, ?_, ?_⟩
  · intro h
    rcases h with h | h <;> · unfold finalPayoutOf; rw [h]
  · intro h
    unfold finalPayoutOf
    rw [h]

set_option maxRecDepth 100000 in
/-- Concrete instance of the C6 theorem: the sample Special plan paying
117 daily, evaluated one day after its start and again later the same
day. -/
theorem c6_witness :
    (sampleStore.getUser 7 = some ⟨0, 0, none, true⟩) ∧
    (sampleSpecialPlan.lastPayoutDate = none) ∧
    (sampleSpecialPlan.planType = PlanType.Special) ∧
    (dayMs ≤ 86400000 -
      max (sampleSpecialPlan.lastPayoutDate.getD sampleSpecialPlan.startDate)
        sampleSpecialPlan.startDate) ∧
    ((processDailyPayout sampleSpecialPlan 86400000 sampleStore).getUser 7 =
      some ⟨(0 : ℚ) + 117, 0, none, true⟩) ∧
    ((processDailyPayout sampleSpecialPlan 86400000 sampleStore).txns =
      [dailyTxnOf sampleSpecialPlan]) ∧
    ((processDailyPayout sampleSpecialPlan 86400000
        sampleStore).products.filter (fun r => r.pid = 1) =
      [{ sampleSpecialPlan with lastPayoutDate := some 86400000 }]) ∧
    (processDailyPayout
      { sampleSpecialPlan with lastPayoutDate := some 86400000 }
      86400001 sampleStore = sampleStore) := by
  have h := c6_daily_payout sampleStore sampleSpecialPlan 86400000
    ⟨0, 0, none, true⟩ rfl (Or.inl rfl)
  refine ⟨rfl, rfl, rfl, by decide, ?_, ?_, ?_, ?_⟩
  · exact (h.2.1 rfl (by decide)).1
  · exact (h.2.1 rfl (by decide)).2.1
  · exact (h.2.1 rfl (by decide)).2.2 rfl
  · exact h.2.2.2.2.1 sampleStore 86400001 (by decide)

set_option maxRecDepth 100000 in
/-- Concrete instance of the C5 theorem: the expired Special plan
(price 3000) is completed by the sweep with a principal-only payout. -/
theorem c5_witness :
    (expiredSpecialPlan.status = PStatus.Active) ∧
    (expiredSpecialPlan.startDate ≤ (86400000 : Int)) ∧
    (expiredSpecialPlan.endDate ≤ (86400000 : Int)) ∧
    (expiredStore.getUser 9 = some ⟨5, 0, none, true⟩) ∧
    (expiredStore.products.filter (fun r => r.pid = 2) =
      [expiredSpecialPlan]) ∧
    ((processDailyPayouts 86400000 expiredStore).getUser 9 =
      some ⟨(5 : ℚ) + 3000, 0, none, true⟩) ∧
    ((processDailyPayouts 86400000 expiredStore).txns.filter
        (fun t => t.userId = 9) = [completionTxnOf expiredSpecialPlan]) ∧
    ((processDailyPayouts 86400000 expiredStore).products.filter
        (fun r => r.pid = 2) =
      [{ expiredSpecialPlan with status := PStatus.Completed }]) ∧
    (finalPayoutOf expiredSpecialPlan = expiredSpecialPlan.price) := by
  have h := c5_expiry_sweep expiredStore expiredSpecialPlan 86400000
    ⟨5, 0, none, true⟩ rfl (by decide) (by decide) rfl rfl rfl
  exact ⟨rfl, by decide, by decide, rfl, rfl, h.1, h.2.1, h.2.2.1,
    h.2.2.2.2.2 rfl⟩

end McdInvest
